import Mathlib

/-!
Verification development for the agentic-rag-tdr repository.

The Python services under `backend/app/services` are shallowly embedded:
pure functions become Lean functions over explicit data; Python `str`
values are modelled as `String` or as lists of Unicode code points
(`List Nat`); fallible code returns `Except String _`.  Numeric scores
that the source computes with Python floats are modelled over `ℚ`
(the verified properties — maxima, sort order, truncation — do not
depend on floating-point rounding).
-/

set_option maxRecDepth 1000000

namespace PyStr

/-- Unicode code points of a Lean string (Python strings are sequences
of code points, so `List Nat` of code points is the faithful carrier). -/
def s2c (s : String) : List Nat := s.data.map Char.toNat

/-- Python `str.lower`, restricted to Basic Latin and the Latin-1
supplement (the alphabet of this repository's French/English texts):
`A`–`Z` and `À`–`Þ` (except `×`) map 32 code points up, everything else
is unchanged. -/
def pyLowerCp (n : Nat) : Nat :=
  if 65 ≤ n ∧ n ≤ 90 then n + 32
  else if 192 ≤ n ∧ n ≤ 222 ∧ n ≠ 215 then n + 32
  else n

/-- An uppercasing map on the same alphabet; it is a section of
`pyLowerCp` and is used to state case-insensitivity. -/
def upperLatinCp (n : Nat) : Nat :=
  if 97 ≤ n ∧ n ≤ 122 then n - 32
  else if 224 ≤ n ∧ n ≤ 254 ∧ n ≠ 247 then n - 32
  else n

/-- `needle.isPrefixOf hay` for code-point lists. -/
def isPrefix : List Nat → List Nat → Bool
  | [], _ => true
  | _ :: _, [] => false
  | m :: ms, t :: ts => m == t && isPrefix ms ts

/-- Python substring containment `needle in hay`. -/
def isSubstr (m : List Nat) : List Nat → Bool
  | [] => m.isEmpty
  | t :: ts => isPrefix m (t :: ts) || isSubstr m ts

theorem isPrefix_nil (m : List Nat) : isPrefix [] m = true := by
  cases m <;> rfl

theorem isSubstr_map_congr (f g : Nat → Nat) (m t : List Nat)
    (hm : m.map f = m.map g) (ht : t.map f = t.map g) :
    isSubstr (m.map f) (t.map f) = isSubstr (m.map g) (t.map g) := by
  rw [hm, ht]

end PyStr

namespace DocTypeService

open PyStr

/-- `_norm` from `doc_type_service.py`: lowercase, then normalise the
curly apostrophe `U+2019` to `'` (`0x27`). -/
def pyNorm (t : List Nat) : List Nat :=
  (t.map pyLowerCp).map (fun n => if n = 0x2019 then 39 else n)

/-- The `ami_markers` list from `detect_doc_type`, character for
character as Python evaluates the literals: `\b` is the backspace
character `0x08` and `\s` stays a literal backslash-s, so the
regex-looking entries are plain (never-matching) substrings. -/
def amiMarkers : List (List Nat) :=
  [ s2c "appel à manifestations d’intérêts",
    s2c "appel à manifestation d’intérêt",
    s2c "appel a manifestation d\x27interet",
    s2c "appel a manifestations d\x27interets",
    s2c "manifestations d\x27intérêt",
    s2c "manifestations d’interêt",
    s2c "manifester leur intérêt",
    s2c "manifester leur interet",
    s2c "invite les firmes",
    s2c "invite les consultants",
    s2c "les consultants intéressés doivent fournir",
    s2c "les consultants interesses doivent fournir",
    s2c "critères d’analyse des dossiers",
    s2c "criteres d\x27analyse des dossiers",
    s2c "barème de notation",
    s2c "poids",
    s2c "qcbs",
    s2c "sfqc",
    s2c "sélection fondée sur la qualité",
    s2c "selection fondee sur la qualite",
    s2c "règlement de passation des marchés",
    s2c "reglement de passation des marches",
    s2c "conflits d\x27intérêts",
    s2c "conflits d\x27interets",
    s2c "manifestations d\x27intérêt doivent être envoyées",
    s2c "manifestations d\x27interet doivent etre envoyees",
    s2c "\x08appel\\s+[àa]\\s+manifestations?\\s+d[’\x27]int[eé]r[eê]t\x08",
    s2c "\x08manifestations?\\s+d[’\x27]int[eé]r[eê]t\x08",
    s2c "\x08qcbs\x08|\x08qcb[s]?\x08|\x08sfqc\x08",
    s2c "\x08liste\\s+restreinte\x08|\x08short\\s*list\x08|\x08shortlist\x08",
    s2c "\x08firmes?\\s+de\\s+consultants?\x08|\x08firms?\\s+of\\s+consultants?\x08",
    s2c "\x08doivent\\s+[êe]tre\\s+envoy[ée]es?\x08|\x08au\\s+plus\\s+tard\x08|\x08avant\\s+le\x08",
    s2c "\x08int[eé]r[eê]ss[ée]s?\x08.*\x08doivent\\s+fournir\x08" ]

/-- The `tdr_markers` list from `detect_doc_type`, same conventions. -/
def tdrMarkers : List (List Nat) :=
  [ s2c "termes de référence",
    s2c "termes de reference",
    s2c "tdr",
    s2c "cahier des charges",
    s2c "description de la prestation",
    s2c "profil du consultant",
    s2c "livrables attendus",
    s2c "objectifs de la mission",
    s2c "\x08termes?\\s+de\\s+r[eé]f[eé]rence\x08",
    s2c "\x08terms?\\s+of\\s+reference\x08",
    s2c "\x08tdr\x08",
    s2c "\x08terme\\s+de\\s+r[eé]f[eé]rence\x08",
    s2c "\x08consultant\x08",
    s2c "\x08prestation\x08",
    s2c "\x08mission\x08",
    s2c "\x08objectifs?\x08",
    s2c "\x08livrables?\x08",
    s2c "\x08profil\x08",
    s2c "\x08qualifications?\x08",
    s2c "\x08m[eé]thodologie\x08",
    s2c "\x08planning\x08|\x08calendrier\x08",
    s2c "\x08modalit[eé]s?\x08" ]

/-- `sum(1 for m in markers if m in t)`. -/
def markerScore (markers : List (List Nat)) (t : List Nat) : Nat :=
  (markers.filter (fun m => isSubstr m t)).length

def amiScore (t : List Nat) : Nat := markerScore amiMarkers t

def tdrScore (t : List Nat) : Nat := markerScore tdrMarkers t

/-- The final high-confidence test of `detect_doc_type`:
`"manifestations d'intérêt" in t or "qcbs" in t or "sfqc" in t`. -/
def highConfAmi (t : List Nat) : Bool :=
  isSubstr (s2c "manifestations d\x27intérêt") t
    || isSubstr (s2c "qcbs") t || isSubstr (s2c "sfqc") t

/-- `detect_doc_type` from `doc_type_service.py`, on code points. -/
def detectN (raw : List Nat) : String :=
  let t := pyNorm raw
  if 2 ≤ amiScore t ∧ tdrScore t ≤ amiScore t then "ami"
  else if 2 ≤ tdrScore t then "tdr"
  else if highConfAmi t then "ami"
  else "other"

/-- `detect_doc_type` on Lean strings. -/
def detectDocType (text : String) : String := detectN (s2c text)

/-- Modelled from the spec: the ordered decision rule of §4.1, stated
on the two scores and the high-confidence test. -/
def specDecisionRule (interest reference : Nat) (highConf : Bool) : String :=
  if 2 ≤ interest ∧ reference ≤ interest then "ami"
  else if 2 ≤ reference then "tdr"
  else if highConf then "ami"
  else "other"

end DocTypeService

namespace Sha1

def mask32 : Nat := 4294967296

def rotl (n x : Nat) : Nat := ((x <<< n) % mask32) ||| (x >>> (32 - n))

def not32 (x : Nat) : Nat := 4294967295 - x

/-- split a byte list into big-endian 32-bit words -/
def bytesToWords : List Nat → List Nat
  | a :: b :: c :: d :: rest => (((a * 256 + b) * 256 + c) * 256 + d) :: bytesToWords rest
  | _ => []

/-- message-schedule extension: `state` holds the last 16 words, most
recent first; produce `k` further words. -/
def genWords (state : List Nat) : Nat → List Nat
  | 0 => []
  | k + 1 =>
    let nw := rotl 1 ((state.getD 2 0) ^^^ (state.getD 7 0) ^^^ (state.getD 13 0) ^^^ (state.getD 15 0))
    nw :: genWords (nw :: state.take 15) k

def roundStep (acc : Nat × Nat × Nat × Nat × Nat) (iw : Nat × Nat) : Nat × Nat × Nat × Nat × Nat :=
  let (a, b, c, d, e) := acc
  let (i, w) := iw
  let f :=
    if i < 20 then (b &&& c) ||| ((not32 b) &&& d)
    else if i < 40 then b ^^^ c ^^^ d
    else if i < 60 then (b &&& c) ||| (b &&& d) ||| (c &&& d)
    else b ^^^ c ^^^ d
  let k :=
    if i < 20 then 0x5A827999
    else if i < 40 then 0x6ED9EBA1
    else if i < 60 then 0x8F1BBCDC
    else 0xCA62C1D6
  let temp := (rotl 5 a + f + e + k + w) % mask32
  (temp, a, rotl 30 b, c, d)

def processBlock (h : Nat × Nat × Nat × Nat × Nat) (block : List Nat) :
    Nat × Nat × Nat × Nat × Nat :=
  let w16 := bytesToWords block
  let ws := w16 ++ genWords w16.reverse 64
  let (h0, h1, h2, h3, h4) := h
  let (a, b, c, d, e) := (((List.range 80).zip ws).foldl roundStep (h0, h1, h2, h3, h4))
  ((h0 + a) % mask32, (h1 + b) % mask32, (h2 + c) % mask32, (h3 + d) % mask32, (h4 + e) % mask32)

def be64 (n : Nat) : List Nat :=
  [(n >>> 56) % 256, (n >>> 48) % 256, (n >>> 40) % 256, (n >>> 32) % 256,
   (n >>> 24) % 256, (n >>> 16) % 256, (n >>> 8) % 256, n % 256]

def pad (msg : List Nat) : List Nat :=
  let l := msg.length
  msg ++ 128 :: List.replicate ((119 - (l % 64)) % 64) 0 ++ be64 (8 * l)

def toBlocksGo : Nat → List Nat → List (List Nat)
  | 0, _ => []
  | _ + 1, [] => []
  | fuel + 1, l@(_ :: _) => l.take 64 :: toBlocksGo fuel (l.drop 64)

def toBlocks (l : List Nat) : List (List Nat) := toBlocksGo l.length l

def wordBytes (w : Nat) : List Nat := [(w >>> 24) % 256, (w >>> 16) % 256, (w >>> 8) % 256, w % 256]

/-- SHA-1 digest of a byte list, as 20 bytes. -/
def sha1 (msg : List Nat) : List Nat :=
  let (h0, h1, h2, h3, h4) :=
    (toBlocks (pad msg)).foldl processBlock
      (0x67452301, 0xEFCDAB89, 0x98BADCFE, 0x10325476, 0xC3D2E1F0)
  wordBytes h0 ++ wordBytes h1 ++ wordBytes h2 ++ wordBytes h3 ++ wordBytes h4

end Sha1

namespace UuidM

def hexDigitChar (n : Nat) : Char := if n < 10 then Char.ofNat (48 + n) else Char.ofNat (87 + n)

def byteHex (b : Nat) : List Char := [hexDigitChar (b / 16), hexDigitChar (b % 16)]

def hexOfBytes (bs : List Nat) : List Char := bs.foldr (fun b acc => byteHex b ++ acc) []

def hexVal? (c : Char) : Option Nat :=
  if 48 ≤ c.toNat ∧ c.toNat ≤ 57 then some (c.toNat - 48)
  else if 97 ≤ c.toNat ∧ c.toNat ≤ 102 then some (c.toNat - 87)
  else if 65 ≤ c.toNat ∧ c.toNat ≤ 70 then some (c.toNat - 55)
  else none

def hexPairsToBytes : List Char → Option (List Nat)
  | [] => some []
  | [_] => none
  | a :: b :: rest => do
    let x ← hexVal? a
    let y ← hexVal? b
    let tl ← hexPairsToBytes rest
    pure ((16 * x + y) :: tl)

/-- Python `str.replace(pat, "")`: remove every occurrence of `pat`,
scanning left to right. -/
def removeSubGo (pat : List Char) : Nat → List Char → List Char
  | 0, l => l
  | _ + 1, [] => []
  | fuel + 1, c :: rest =>
    if !pat.isEmpty && pat.isPrefixOf (c :: rest) then
      removeSubGo pat fuel ((c :: rest).drop pat.length)
    else c :: removeSubGo pat fuel rest

/-- Python `str.replace(pat, "")`: remove every occurrence of `pat`,
scanning left to right. -/
def removeSub (pat : List Char) (l : List Char) : List Char :=
  removeSubGo pat l.length l

/-- Python `str.strip("{}")`. -/
def stripBraces (l : List Char) : List Char :=
  ((l.dropWhile fun c => c = '{' || c = '}').reverse.dropWhile fun c => c = '{' || c = '}').reverse

/-- `uuid.UUID(doc_id)` modelled on its canonical domain: remove
`urn:` and `uuid:`, strip braces, drop hyphens, then require exactly 32
hex digits. (CPython's `int(hex, 16)` additionally tolerates `0x`
prefixes and grouping underscores; such exotic inputs are outside this
model's domain.) Returns the 16 big-endian bytes of the UUID. -/
def pyUUIDparse (s : String) : Option (List Nat) :=
  let cs := removeSub "urn:".data s.data
  let cs := removeSub "uuid:".data cs
  let cs := stripBraces cs
  let cs := removeSub "-".data cs
  if cs.length = 32 then hexPairsToBytes cs else none

def utf8Encode (c : Nat) : List Nat :=
  if c < 128 then [c]
  else if c < 2048 then [192 ||| (c >>> 6), 128 ||| (c &&& 63)]
  else if c < 65536 then
    [224 ||| (c >>> 12), 128 ||| ((c >>> 6) &&& 63), 128 ||| (c &&& 63)]
  else
    [240 ||| (c >>> 18), 128 ||| ((c >>> 12) &&& 63),
     128 ||| ((c >>> 6) &&& 63), 128 ||| (c &&& 63)]

def utf8OfChars (cs : List Char) : List Nat :=
  cs.foldr (fun c acc => utf8Encode c.toNat ++ acc) []

/-- `uuid.uuid5(ns, name)`: SHA-1 of namespace bytes ++ UTF-8 name,
truncated to 16 bytes, with the version nibble forced to 5 and the
variant bits to RFC 4122. -/
def setVersionVariant : Nat → List Nat → List Nat
  | _, [] => []
  | i, b :: rest =>
    (if i = 6 then (b &&& 15) ||| 80
     else if i = 8 then (b &&& 63) ||| 128
     else b) :: setVersionVariant (i + 1) rest

def uuid5Bytes (ns : List Nat) (name : List Nat) : List Nat :=
  setVersionVariant 0 ((Sha1.sha1 (ns ++ name)).take 16)

/-- `str(uuid)`: lowercase hex in 8-4-4-4-12 groups. -/
def uuidStr (bs : List Nat) : String :=
  ⟨hexOfBytes (bs.take 4) ++ '-' :: hexOfBytes ((bs.drop 4).take 2) ++
    '-' :: hexOfBytes ((bs.drop 6).take 2) ++ '-' :: hexOfBytes ((bs.drop 8).take 2) ++
    '-' :: hexOfBytes (bs.drop 10)⟩

def natDecimalGo : Nat → Nat → List Char
  | 0, _ => []
  | fuel + 1, n =>
    if n < 10 then [Char.ofNat (48 + n)]
    else natDecimalGo fuel (n / 10) ++ [Char.ofNat (48 + n % 10)]

/-- Python `str(n)` for a non-negative int. -/
def natDecimal (n : Nat) : List Char := natDecimalGo (n + 1) n

/-- the f-string `f"{doc_id}:{section}:{chunk_index}"` -/
def pointName (doc_id sec : String) (chunk_index : Nat) : List Char :=
  doc_id.data ++ ':' :: sec.data ++ ':' :: natDecimal chunk_index

end UuidM

namespace ChunkingService

/-- Python whitespace (`str.strip`, regex `\s`), restricted to the
Latin-1 fragment that can occur in this pipeline's texts. -/
def pyWsChar (c : Char) : Bool :=
  [9, 10, 11, 12, 13, 28, 29, 30, 31, 32, 133, 160].contains c.toNat

/-- the regex class `[A-Za-zÀ-ÿ]` (the raw code-point range `0xC0`-`0xFF`,
so it also contains `×` and `÷`, exactly as the Python pattern does). -/
def alphaFr (c : Char) : Bool :=
  (65 ≤ c.toNat && c.toNat ≤ 90) || (97 ≤ c.toNat && c.toNat ≤ 122)
    || (192 ≤ c.toNat && c.toNat ≤ 255)

def digitCh (c : Char) : Bool := 48 ≤ c.toNat && c.toNat ≤ 57

def pyLstrip (l : List Char) : List Char := l.dropWhile pyWsChar

def pyRstrip (l : List Char) : List Char := (l.reverse.dropWhile pyWsChar).reverse

def pyStrip (l : List Char) : List Char := pyRstrip (pyLstrip l)

/-- what a maximal run of `k` newlines becomes under
`re.sub(r"\n{3,}", "\n\n", ...)`. -/
def nlFlush (k : Nat) : List Char := List.replicate (if 3 ≤ k then 2 else k) '\n'

def collapseNlGo : Nat → List Char → List Char
  | k, [] => nlFlush k
  | k, c :: rest =>
    if c = '\n' then collapseNlGo (k + 1) rest
    else nlFlush k ++ c :: collapseNlGo 0 rest

/-- `re.sub(r"\n{3,}", "\n\n", s)`: maximal newline runs of length ≥ 3
collapse to exactly two. -/
def collapseNl (l : List Char) : List Char := collapseNlGo 0 l

def spFlush (pend : List Char) : List Char := if 2 ≤ pend.length then [' '] else pend

def collapseSpGo : List Char → List Char → List Char
  | pend, [] => spFlush pend.reverse
  | pend, c :: rest =>
    if c = ' ' || c = '\t' then collapseSpGo (c :: pend) rest
    else spFlush pend.reverse ++ c :: collapseSpGo [] rest

/-- `re.sub(r"[ \t]{2,}", " ", s)`. -/
def collapseSp (l : List Char) : List Char := collapseSpGo [] l

/-- `_norm_text` from `chunking_service.py`. -/
def normText (l : List Char) : List Char :=
  pyStrip (collapseSp (collapseNl (l.filter (· ≠ '\r'))))

-- ----- the separator-row pattern of `_looks_like_table_md` -----

def cls1 (c : Char) : Bool := pyWsChar c || c = ':' || c = '-'

def cls2 (c : Char) : Bool := cls1 c || c = '|'

def countLeading (p : Char → Bool) : List Char → Nat
  | [] => 0
  | c :: rest => if p c then countLeading p rest + 1 else 0

/-- after one or more `[\s:\-\|]` characters have been consumed: the
rest matches `[\s:\-\|]*\s*$` (in multiline mode `$` also fires just
before a newline, and `\s ⊆ [\s:\-\|]`, so this is: consume class-2
characters until the end of the string or a newline). -/
def sepRestOk : List Char → Bool
  | [] => true
  | c :: rest => if c = '\n' then true else cls2 c && sepRestOk rest

def sepTailOk : List Char → Bool
  | [] => false
  | c :: rest => cls2 c && sepRestOk rest

def startsPipe : List Char → Bool
  | '|' :: _ => true
  | _ => false

/-- match `\s*\|?[\s:\-]+\|[\s:\-\|]+\s*$` at this position, no leading
`|` consumed: since `\s ⊆ [\s:\-]` and `| ∉ [\s:\-]`, the prefix is one
maximal class-1 run that must stop at a `|`. -/
def sepBranchNoPipe (l : List Char) : Bool :=
  let r := countLeading cls1 l
  decide (1 ≤ r) && startsPipe (l.drop r) && sepTailOk (l.drop (r + 1))

/-- same pattern with the optional leading `|` consumed after `\s*`. -/
def sepBranchPipe (l : List Char) : Bool :=
  let w := countLeading pyWsChar l
  startsPipe (l.drop w) &&
    (let l2 := l.drop (w + 1)
     let r := countLeading cls1 l2
     decide (1 ≤ r) && startsPipe (l2.drop r) && sepTailOk (l2.drop (r + 1)))

def sepMatchFrom (l : List Char) : Bool := sepBranchNoPipe l || sepBranchPipe l

def sepSearchGo : List Char → Bool
  | [] => false
  | c :: rest => (c = '\n' && sepMatchFrom rest) || sepSearchGo rest

/-- `re.search` of the separator pattern with `(?m)^` anchors: try
position 0 and every position following a newline. -/
def sepSearch (l : List Char) : Bool := sepMatchFrom l || sepSearchGo l

/-- `_looks_like_table_md`. -/
def looksLikeTableMd (b : List Char) : Bool := b.contains '|' && sepSearch b

-- ----- `_extract_md_tables` -----

/-- Python `str.splitlines` (over the line-break characters up to
Latin-1 plus the Unicode line/paragraph separators; `\r\n` is a single
break; a trailing break produces no extra line). -/
def splitLinesGo (acc : List Char) : List Char → List (List Char)
  | [] => if acc.isEmpty then [] else [acc.reverse]
  | '\r' :: '\n' :: rest => acc.reverse :: splitLinesGo [] rest
  | c :: rest =>
    if [10, 11, 12, 13, 28, 29, 30, 133, 8232, 8233].contains c.toNat then
      acc.reverse :: splitLinesGo [] rest
    else splitLinesGo (c :: acc) rest

def splitLinesPy (l : List Char) : List (List Char) := splitLinesGo [] l

def joinNl : List (List Char) → List Char
  | [] => []
  | [x] => x
  | x :: rest => x ++ '\n' :: joinNl rest

def isTableLine (line : List Char) : Bool :=
  line.contains '|' && decide (line.length ≤ 500)

def flushTbl (cur : List (List Char)) : List (List Char) :=
  if cur.isEmpty then []
  else
    let t := pyStrip (joinNl cur)
    if !t.isEmpty && looksLikeTableMd t then [t] else []

def extractTablesGo : List (List Char) → List (List Char) → List (List Char)
  | cur, [] => flushTbl cur
  | cur, line :: rest =>
    if isTableLine line then extractTablesGo (cur ++ [line]) rest
    else flushTbl cur ++ extractTablesGo [] rest

/-- `_extract_md_tables`. -/
def extractMdTables (text : List Char) : List (List Char) :=
  if text.isEmpty then [] else extractTablesGo [] (splitLinesPy text)

def replaceSubGo (pat repl : List Char) : Nat → List Char → List Char
  | 0, l => l
  | _ + 1, [] => []
  | fuel + 1, c :: rest =>
    if !pat.isEmpty && pat.isPrefixOf (c :: rest) then
      repl ++ replaceSubGo pat repl fuel ((c :: rest).drop pat.length)
    else c :: replaceSubGo pat repl fuel rest

/-- Python `str.replace(pat, repl)` (all occurrences, left to right). -/
def replaceSub (pat repl l : List Char) : List Char := replaceSubGo pat repl l.length l

/-- `_remove_tables_from_text`. -/
def removeTablesFromText (text : List Char) : List Char :=
  if text.isEmpty then []
  else normText ((extractMdTables text).foldl (fun out t => replaceSub t ['\n'] out) text)

-- ----- `_split_sentences_fallback` -----

/-- index of the last newline in a list, if any. -/
def lastNl : List Char → Option Nat
  | [] => none
  | c :: rest =>
    match lastNl rest with
    | some j => some (j + 1)
    | none => if c = '\n' then some 0 else none

/-- `re.split(r"\n\s*\n", t)`: at a newline, the greedy `\s*` takes the
maximal whitespace run that still leaves a final newline, i.e. the
match ends at the last newline of the maximal whitespace run following
the first one. -/
def paraSplitGo : Nat → List Char → List Char → List (List Char)
  | 0, acc, l => [acc.reverse ++ l]
  | _ + 1, acc, [] => [acc.reverse]
  | fuel + 1, acc, c :: rest =>
    if c = '\n' then
      let r := countLeading pyWsChar rest
      match lastNl (rest.take r) with
      | some j => acc.reverse :: paraSplitGo fuel [] (rest.drop (j + 1))
      | none => paraSplitGo fuel ('\n' :: acc) rest
    else paraSplitGo fuel (c :: acc) rest

def paraSplit (l : List Char) : List (List Char) := paraSplitGo l.length [] l

def sentPunct (c : Char) : Bool := c = '.' || c = '?' || c = '!' || c = ';' || c = ':'

/-- `re.split(r"(?<=[\.\?!;:])\s+", t)`: split at each maximal
whitespace run whose preceding character is sentence punctuation. -/
def sentSplitGo : Nat → Option Char → List Char → List Char → List (List Char)
  | 0, _, acc, l => [acc.reverse ++ l]
  | _ + 1, _, acc, [] => [acc.reverse]
  | fuel + 1, prev, acc, c :: rest =>
    if pyWsChar c && (prev.map sentPunct).getD false then
      let r := countLeading pyWsChar (c :: rest)
      acc.reverse :: sentSplitGo fuel (some ' ') [] ((c :: rest).drop r)
    else sentSplitGo fuel (some c) (c :: acc) rest

def sentSplit (l : List Char) : List (List Char) := sentSplitGo l.length none [] l

/-- `_split_sentences_fallback`. -/
def splitSentencesFallback (text : List Char) : List (List Char) :=
  let t := normText text
  if t.isEmpty then []
  else
    let parts := ((paraSplit t).map pyStrip).filter (fun p => !p.isEmpty)
    if 2 ≤ parts.length then parts
    else ((sentSplit t).map pyStrip).filter (fun p => !p.isEmpty)

-- ----- `_build_windows` -----

def joinPara : List (List Char) → List Char
  | [] => []
  | [x] => x
  | x :: rest => x ++ '\n' :: '\n' :: joinPara rest

/-- the inner `flush()` of `_build_windows`: join the current units,
re-normalise, hard-cap at `max_chars` (with a trailing rstrip). -/
def flushWin (maxC : Nat) (cur chunks : List (List Char)) : List (List Char) :=
  if cur.isEmpty then chunks
  else if (normText (joinPara cur)).isEmpty then chunks
  else if maxC < (normText (joinPara cur)).length then
    chunks ++ [pyRstrip ((normText (joinPara cur)).take maxC)]
  else chunks ++ [normText (joinPara cur)]

/-- the `next_start` computation of the hard-split loop. -/
def hardSliceNext (ov start e : Nat) : Nat :=
  let ns := if 0 < ov then e - ov else e
  if ns ≤ start then e else ns

/-- the hard-split loop for a single unit longer than `max_chars`
(fuelled: the Python loop diverges when `max_chars = 0`, which cannot
occur with the positive configured sizes). -/
def hardSliceGo (u : List Char) (maxC ov : Nat) : Nat → Nat → List (List Char)
  | 0, _ => []
  | fuel + 1, start =>
    if start < u.length then
      if u.length ≤ min (start + maxC) u.length then
        [normText ((u.drop start).take (min (start + maxC) u.length - start))]
      else
        normText ((u.drop start).take (min (start + maxC) u.length - start)) ::
          hardSliceGo u maxC ov fuel (hardSliceNext ov start (min (start + maxC) u.length))
    else []

def takeLast (k : Nat) (l : List Char) : List Char := l.drop (l.length - k)

/-- the overlap seed taken from the previous flushed window. -/
def overlapTail (ov : Nat) (chunks : List (List Char)) : List Char :=
  pyStrip (takeLast ov (chunks.getLastD []))

def buildWindowsGo (target maxC ov : Nat) :
    List (List Char) → List (List Char) → List (List Char) → Nat → List (List Char)
  | [], chunks, cur, _ => flushWin maxC cur chunks
  | u0 :: us, chunks, cur, curLen =>
    if (pyStrip u0).isEmpty then buildWindowsGo target maxC ov us chunks cur curLen
    else if maxC < (pyStrip u0).length then
      buildWindowsGo target maxC ov us
        (flushWin maxC cur chunks
          ++ hardSliceGo (pyStrip u0) maxC ov ((pyStrip u0).length + 1) 0) [] 0
    else if curLen + (pyStrip u0).length + 2 ≤ target || cur.isEmpty then
      buildWindowsGo target maxC ov us chunks (cur ++ [pyStrip u0])
        (curLen + (pyStrip u0).length + 2)
    else if 0 < ov && !(flushWin maxC cur chunks).isEmpty then
      if (overlapTail ov (flushWin maxC cur chunks)).isEmpty then
        buildWindowsGo target maxC ov us (flushWin maxC cur chunks) [pyStrip u0]
          ((pyStrip u0).length + 2)
      else
        buildWindowsGo target maxC ov us (flushWin maxC cur chunks)
          [overlapTail ov (flushWin maxC cur chunks), pyStrip u0]
          ((overlapTail ov (flushWin maxC cur chunks)).length + (pyStrip u0).length + 2)
    else buildWindowsGo target maxC ov us (flushWin maxC cur chunks) [pyStrip u0]
      ((pyStrip u0).length + 2)

/-- `_build_windows`. -/
def buildWindows (text : List Char) (target maxC ov : Nat) : List (List Char) :=
  if (splitSentencesFallback text).isEmpty then []
  else buildWindowsGo target maxC ov (splitSentencesFallback text) [] [] 0

-- ----- structured documents and `build_chunks_from_structured` -----

/-- document metadata is copied through the pipeline and never
inspected; an association list stands in for the Python dict. -/
abbrev Metadata := List (String × String)

structure Chunk where
  doc_id : String
  doc_type : String
  sec : String
  chunk_index : Nat
  text : String
  metadata : Metadata
  competences : List String
  deriving DecidableEq, Repr

/-- a JSON value that is either a string or a list of strings (the two
shapes `_normalize_list` accepts for the task payload). -/
inductive StrOrList where
  | s (v : String)
  | l (vs : List String)
  deriving DecidableEq, Repr

structure AmiFields where
  deadline : String
  selection_method : String
  emails : List String
  criteres_selection : String
  deriving DecidableEq, Repr

/-- the structured-document JSON (§6 shape): section values are
strings, `taches` may be a list or a string, `ami_fields` optional. -/
structure StructuredDoc where
  doc_id : String
  doc_type? : Option String
  metadata_doc_type? : Option String
  metadata : Metadata
  sections : List (String × String)
  taches? : Option StrOrList
  ami_fields? : Option AmiFields
  deriving DecidableEq, Repr

def sectionsGet (secs : List (String × String)) (k : String) : Option String :=
  (secs.find? (fun p => p.1 == k)).map (·.2)

def pyLowerChar (c : Char) : Char :=
  if 65 ≤ c.toNat ∧ c.toNat ≤ 90 then Char.ofNat (c.toNat + 32)
  else if 192 ≤ c.toNat ∧ c.toNat ≤ 222 ∧ c.toNat ≠ 215 then Char.ofNat (c.toNat + 32)
  else c

/-- Python falsy-default chaining `a or b` for optional strings. -/
def orElseStr (a : Option String) (b : String) : String :=
  match a with
  | none => b
  | some s => if s.isEmpty then b else s

/-- `(structured.get("doc_type") or structured.get("metadata", {}).get("doc_type")
or "unknown").strip().lower()`, re-defaulted to `"unknown"` if empty. -/
def docTypeOf (d : StructuredDoc) : String :=
  let raw := orElseStr d.doc_type? (orElseStr d.metadata_doc_type? "unknown")
  let t := (pyStrip raw.data).map pyLowerChar
  if t.isEmpty then "unknown" else ⟨t⟩

def compDedupGo : List String → List String → List String → List String
  | [], _, acc => acc.reverse
  | c :: rest, seen, acc =>
    let s : String := ⟨(pyStrip c.data).map pyLowerChar⟩
    if s.isEmpty || seen.contains s then compDedupGo rest seen acc
    else compDedupGo rest (s :: seen) (s :: acc)

/-- the competences normalisation at the top of
`build_chunks_from_structured` (drawn from `sections["competences"]`,
case-folded, deduplicated, order-preserving). -/
def competencesOf (d : StructuredDoc) : List String :=
  let cl : List String :=
    match sectionsGet d.sections "competences" with
    | some s => if s.isEmpty then [] else [s]
    | none => []
  compDedupGo cl [] []

/-- the inner `_normalize_list` helper. -/
def normalizeListPy (x : Option StrOrList) : List String :=
  match x with
  | none => []
  | some (.l vs) =>
    (vs.map (fun v => (⟨pyStrip v.data⟩ : String))).filter (fun s => !s.isEmpty)
  | some (.s v) =>
    ((splitLinesPy v.data).map (fun l => (⟨pyStrip l⟩ : String))).filter (fun s => !s.isEmpty)

/-- `structured.get("taches")`, falling back to `sections.get("taches")`,
normalised. -/
def tachesOf (d : StructuredDoc) : List String :=
  normalizeListPy (d.taches? <|> ((sectionsGet d.sections "taches").map .s))

def sectionPriority (docType : String) : List String :=
  if docType = "ami" then
    ["contexte", "mission", "profil", "livrables", "taches", "evaluation",
     "candidature", "planning", "taches_table", "ami:criteres_selection", "ami:deadline"]
  else
    ["contexte", "mission", "taches", "livrables", "planning", "profil",
     "evaluation", "candidature", "taches_table", "competences"]

/-- `_stable_hash`: first 10 hex digits of the SHA-1 of the UTF-8 text. -/
def stableHash (t : List Char) : List Char :=
  (UuidM.hexOfBytes (Sha1.sha1 (UuidM.utf8OfChars t))).take 10

def joinSep (sep : String) : List (List Char) → List Char
  | [] => []
  | [x] => x
  | x :: rest => x ++ sep.data ++ joinSep sep rest

/-- `String.startsWith` on the underlying character lists (the library
version does not reduce in the kernel). -/
def strStartsWith (s pre : String) : Bool := pre.data.isPrefixOf s.data

/-- the requests one narrative section contributes: its windows, then
its extracted tables (at most ten). -/
def perSectionRequests (sec rawS : String) (target maxC ov : Nat) :
    List (String × List Char) :=
  if (normText rawS.data).isEmpty then []
  else
    ((buildWindows (removeTablesFromText (normText rawS.data)) target maxC ov).map
      (fun w => (sec, w)))
      ++ (((((extractMdTables (normText rawS.data)).take 10).map normText).filter
            (fun tb => !tb.isEmpty)).map (fun tb => ("table:" ++ sec, tb)))

/-- the narrative/table add-requests of step 1 of
`build_chunks_from_structured`: the `(section, text)` pairs passed to
`add`, in program order.  (`add`'s effects never feed back into which
texts are produced, so the call sequence is a pure function of the
document.) -/
def sectionRequests (d : StructuredDoc) (target maxC ov : Nat) : List (String × List Char) :=
  ((sectionPriority (docTypeOf d)).map (fun sec =>
    if strStartsWith sec "ami:" then []
    else
      match sectionsGet d.sections sec with
      | none => []
      | some rawS => perSectionRequests sec rawS target maxC ov)).flatten

def tacheSummaryItems (d : StructuredDoc) : List (List Char) :=
  (((tachesOf d).take 25).map (fun x => normText x.data)).filter (fun t => !t.isEmpty)

/-- step 2: task summary and per-item requests. -/
def tacheRequests (d : StructuredDoc) : List (String × List Char) :=
  if (tachesOf d).isEmpty then []
  else
    (if (tacheSummaryItems d).isEmpty then []
     else [(("taches" : String),
            "Tâches / activités principales :\n- ".data
              ++ joinSep "\n- " (tacheSummaryItems d))])
    ++ (((((tachesOf d).take 40).map (fun item => normText item.data)).filter
          (fun it => !it.isEmpty && decide (8 ≤ it.length))).map
            (fun it => (("tache:item" : String),
              "[task:".data ++ stableHash it ++ "] ".data ++ it)))

/-- step 3: the compact competences request. -/
def compRequests (d : StructuredDoc) : List (String × List Char) :=
  if (competencesOf d).isEmpty then []
  else [(("competences" : String),
         "Compétences / mots-clés détectés : ".data
           ++ joinSep ", " (((competencesOf d).take 80).map (·.data)))]

def amiEmailsClean (f : AmiFields) : List String :=
  (f.emails.map (fun e => (⟨pyStrip e.data⟩ : String))).filter (fun s => !s.isEmpty)

/-- step 4: the AMI-field requests (absent `ami_fields` behaves as an
empty dict, which produces nothing). -/
def amiRequests (d : StructuredDoc) (target maxC ov : Nat) : List (String × List Char) :=
  match d.ami_fields? with
  | none => []
  | some f =>
    if docTypeOf d = "ami" then
      (if (normText f.deadline.data).isEmpty then []
       else [(("ami:deadline" : String), normText f.deadline.data)])
      ++ (if (normText f.selection_method.data).isEmpty then []
          else [(("ami:selection_method" : String), normText f.selection_method.data)])
      ++ (if f.emails.isEmpty || (amiEmailsClean f).isEmpty then []
          else [(("ami:emails" : String),
                 "Contacts / emails : ".data
                   ++ joinSep ", " (((amiEmailsClean f).take 20).map (·.data)))])
      ++ (if (normText f.criteres_selection.data).isEmpty then []
          else
            ((buildWindows (removeTablesFromText (normText f.criteres_selection.data))
                target maxC ov).map (fun w => (("ami:criteres_selection" : String), w)))
              ++ (((((extractMdTables (normText f.criteres_selection.data)).take 10).map
                    normText).filter (fun tb => !tb.isEmpty)).map
                      (fun tb => (("table:ami_criteres_selection" : String), tb))))
    else []

def addRequests (d : StructuredDoc) (target maxC ov : Nat) : List (String × List Char) :=
  sectionRequests d target maxC ov ++ tacheRequests d ++ compRequests d
    ++ amiRequests d target maxC ov

-- ----- the `add` closure -----

def junkFull (t : List Char) : Bool :=
  !t.isEmpty && t.all (fun c =>
    pyWsChar c || c = '|' || c = '-' || c = ':' || c = '–' || c = '—' || c = '_')

def hasRun4Go : Nat → List Char → Bool
  | _, [] => false
  | k, c :: rest => if alphaFr c then (if 3 ≤ k then true else hasRun4Go (k + 1) rest)
                    else hasRun4Go 0 rest

/-- `re.search(r"[A-Za-zÀ-ÿ]{4,}", t)`. -/
def hasAlpha4 (t : List Char) : Bool := hasRun4Go 0 t

/-- the junk filters of `add` (given the already re-normalised,
non-empty text). -/
def addGuardOk (t : List Char) : Bool :=
  if junkFull t then false
  else
    let pipeCount := (t.filter (· = '|')).length
    let alnum := (t.filter alphaFr).length + (t.filter digitCh).length
    if decide (8 ≤ pipeCount) && decide (alnum < 40) then false
    else if startsPipe (pyLstrip t) && decide (alnum < 60) then false
    else if decide (alnum < 12) && !hasAlpha4 t then false
    else true

structure AddState where
  counters : List (String × Nat)
  chunks : List Chunk
  deriving Repr

def ctrGet : List (String × Nat) → String → Nat
  | [], _ => 0
  | (k', v') :: rest, k => if k' == k then v' else ctrGet rest k

def ctrSet : List (String × Nat) → String → Nat → List (String × Nat)
  | [], k, v => [(k, v)]
  | (k', v') :: rest, k, v =>
    if k' == k then (k, v) :: rest else (k', v') :: ctrSet rest k v

/-- one call of `add(section_name, text)`. -/
def addOne (docId docType : String) (meta : Metadata) (comp : List String)
    (st : AddState) (req : String × List Char) : AddState :=
  if (normText req.2).isEmpty then st
  else if !addGuardOk (normText req.2) then st
  else
    { counters := ctrSet st.counters req.1 (ctrGet st.counters req.1 + 1)
      chunks := st.chunks ++ [{ doc_id := docId, doc_type := docType, sec := req.1,
                                chunk_index := ctrGet st.counters req.1,
                                text := ⟨normText req.2⟩, metadata := meta,
                                competences := comp }] }

/-- `build_chunks_from_structured` (raises `ValueError` on a missing
`doc_id`). -/
def buildChunksFromStructured (d : StructuredDoc) (target maxC ov : Nat) :
    Except String (List Chunk) :=
  if (⟨pyStrip d.doc_id.data⟩ : String).isEmpty then .error "structured missing doc_id"
  else
    .ok (((addRequests d target maxC ov).foldl
      (addOne ⟨pyStrip d.doc_id.data⟩ (docTypeOf d) d.metadata (competencesOf d))
      ⟨[], []⟩).chunks)


end ChunkingService

namespace RagService

open UuidM

/-- `_point_id` from `rag_service.py`:
`str(uuid.uuid5(uuid.UUID(doc_id), f"..."))`; `none` when `doc_id` does
not parse as a UUID (Python raises there). -/
def pointId (doc_id sec : String) (chunk_index : Nat) : Option String :=
  (pyUUIDparse doc_id).map fun ns =>
    uuidStr (uuid5Bytes ns (utf8OfChars (pointName doc_id sec chunk_index)))

end RagService

namespace IndexingService

open UuidM

/-- the inline point-id derivation of `index_document`
(`indexing_service.py` lines 147-148), applied to a chunk. -/
def pointIdOfChunk (c : ChunkingService.Chunk) : Option String :=
  (pyUUIDparse c.doc_id).map fun ns =>
    uuidStr (uuid5Bytes ns (utf8OfChars (pointName c.doc_id c.sec c.chunk_index)))

end IndexingService

namespace UuidM

/-- Modelled from the spec: "a version-5 UUID namespaced by the
document's own id, computed over the string
doc_id:section:chunk_index" (namespace = parsed doc_id, name =
colon-joined triple). -/
def specPointId (doc_id sec : String) (chunk_index : Nat) : Option String :=
  (pyUUIDparse doc_id).map fun ns =>
    uuidStr (uuid5Bytes ns (utf8OfChars
      (doc_id.data ++ ':' :: sec.data ++ ':' :: natDecimal chunk_index)))

/-- decimal digits decode back to the number they print. -/
def decVal (cs : List Char) : Nat := cs.foldl (fun a c => 10 * a + (c.toNat - 48)) 0

end UuidM

namespace ChunkingService

/-- a small structured document exercising narrative windows, a
markdown table, tasks and competences. -/
def chunkFixtureDoc : StructuredDoc :=
  { doc_id := "doc-1", doc_type? := some "tdr", metadata_doc_type? := none,
    metadata := [("language", "fr")],
    sections := [
      ("contexte", "Le contexte du projet est ambitieux. Il couvre plusieurs regions du pays."),
      ("mission", "Realiser une mission complete.\n\nProduire un rapport detaille pour le client final."),
      ("taches", ""),
      ("livrables", "Colonne un | Colonne deux\n--- | ---\nvaleur alpha beta | valeur gamma delta"),
      ("planning", ""), ("profil", ""), ("competences", "audit, ohada"),
      ("evaluation", ""), ("candidature", ""), ("taches_table", "")],
    taches? := some (.l ["Realiser un diagnostic complet du dispositif existant", "court"]),
    ami_fields? := none }

def chunkFixtureChunks : List Chunk :=
  (buildChunksFromStructured chunkFixtureDoc 60 80 10).toOption.getD []

/-- a structured document whose only section content is a markdown
table longer than the chunk cap. -/
def tableOverflowDoc : StructuredDoc :=
  { doc_id := "doc-2", doc_type? := some "tdr", metadata_doc_type? := none,
    metadata := [],
    sections := [("contexte",
      "Colonne un | Colonne deux\n--- | ---\nvaleur alpha beta un | valeur gamma delta deux\nvaleur epsilon zeta trois | valeur eta theta quatre")],
    taches? := none, ami_fields? := none }

/-- a table-free, task-free, competence-free document. -/
def plainWindowDoc : StructuredDoc :=
  { doc_id := "doc-3", doc_type? := some "tdr", metadata_doc_type? := none,
    metadata := [],
    sections := [("mission",
      "Premiere phrase de mission. Deuxieme phrase descriptive. Troisieme phrase finale.")],
    taches? := none, ami_fields? := none }

def plainWindowChunks : List Chunk :=
  (buildChunksFromStructured plainWindowDoc 40 50 5).toOption.getD []

end ChunkingService

namespace SearchService

open ChunkingService (Metadata pyStrip pyLowerChar alphaFr digitCh pyWsChar junkFull
  hasAlpha4 normText StructuredDoc StrOrList sectionsGet)

/-- a retrieved vector-store point: its similarity score and payload.
Scores are modelled over `ℚ`; the verified properties (maxima, sort
order, counts) do not depend on float rounding. -/
structure PoolPoint where
  score : ℚ
  doc_id : String
  doc_type : Option String
  sec : Option String
  chunk_index : Option Nat
  text : String
  metadata : Metadata
  deriving DecidableEq, Repr

/-- a pooled candidate after the junk filter, with its three scores
(`score` and `score_final` are assigned the same fused value by the
source, and the Python falsy-or chain `score_final or score or 0.0`
always evaluates to it). -/
structure Candidate where
  doc_id : String
  doc_type : Option String
  sec : Option String
  chunk_index : Option Nat
  text : String
  metadata : Metadata
  score_vector : ℚ
  score_bm25 : ℚ
  score_final : ℚ
  deriving DecidableEq, Repr

structure Snip where
  sec : Option String
  chunk_index : Option Nat
  score_vector : Option ℚ
  score_bm25 : Option ℚ
  score : ℚ
  snippet : String
  deriving DecidableEq, Repr

structure Grouped where
  doc_id : String
  doc_type : Option String
  score : ℚ
  metadata : Metadata
  snippets : List Snip
  deriving DecidableEq, Repr

/-- the junk-chunk guard of the pool loop (`search_service.py` lines
251-257), applied to the stripped text. -/
def poolJunk (tt : List Char) : Bool :=
  junkFull tt
    || (decide ((tt.filter alphaFr).length + (tt.filter digitCh).length < 12)
        && !hasAlpha4 tt)

/-- Python `str.find` for a needle in a haystack (`-1` becomes `none`). -/
def findSub (needle hay : List Char) : Option Nat :=
  if needle.isPrefixOf hay then some 0
  else match hay with
    | [] => none
    | _ :: rest => (findSub needle rest).map (· + 1)

/-- `_make_snippet(text, query, max_len=320)`. -/
def makeSnippet (text query : String) (maxLen : Nat := 320) : String :=
  if (pyStrip text.data).isEmpty then ""
  else
    match (if 3 ≤ (pyStrip query.data).length then
            findSub ((pyStrip query.data).map pyLowerChar)
              ((pyStrip text.data).map pyLowerChar)
           else none) with
    | none => ⟨(pyStrip text.data).take maxLen⟩
    | some p =>
      ⟨(if 80 < p then "...".data else [])
        ++ (((pyStrip text.data).drop (p - 80)).take
              (min ((pyStrip text.data).length) ((p - 80) + maxLen) - (p - 80)))
        ++ (if min ((pyStrip text.data).length) ((p - 80) + maxLen)
              < (pyStrip text.data).length then "...".data else [])⟩

/-- `_minmax_norm` (the float epsilon `1e-9` kept as a rational). -/
def minmaxNorm (values : List ℚ) : List ℚ :=
  match values with
  | [] => []
  | v :: rest =>
    if |rest.foldl max v - rest.foldl min v| < 1 / 1000000000 then values.map (fun _ => 0)
    else values.map (fun x => (x - rest.foldl min v) / (rest.foldl max v - rest.foldl min v))

/-- `_dedup_by_doc_id`: keep at most `maxPerDoc` chunks per document,
in order. -/
def dedupGo (maxPerDoc : Nat) (counts : List (String × Nat)) :
    List Candidate → List Candidate
  | [] => []
  | it :: rest =>
    if maxPerDoc ≤ ChunkingService.ctrGet counts it.doc_id then dedupGo maxPerDoc counts rest
    else it :: dedupGo maxPerDoc
      (ChunkingService.ctrSet counts it.doc_id (ChunkingService.ctrGet counts it.doc_id + 1)) rest

def dedupByDocId (items : List Candidate) (maxPerDoc : Nat) : List Candidate :=
  dedupGo maxPerDoc [] items

/-- Python truthiness for an optional string. -/
def truthyStr : Option String → Bool
  | none => false
  | some s => !s.isEmpty

/-- stable descending insertion by a rational key: an element is placed
before the first strictly-smaller-keyed element, after equal keys seen
earlier — the same order `list.sort(key=…, reverse=True)` produces. -/
def insertDescBy {α : Type} (key : α → ℚ) (x : α) : List α → List α
  | [] => [x]
  | y :: ys => if key y ≤ key x then x :: y :: ys else y :: insertDescBy key x ys

def sortDescBy {α : Type} (key : α → ℚ) (l : List α) : List α :=
  l.foldr (insertDescBy key) []

/-- one step of the `grouped` dict construction of
`_group_results_by_doc`: find-or-create the document's group, raise its
score/doc_type/metadata on a strictly better chunk, append the snippet. -/
def updateGroup (query : String) (it : Candidate) (g : Grouped) : Grouped :=
  { g with
    score := if g.score < it.score_final then it.score_final else g.score
    doc_type := if g.score < it.score_final ∧ truthyStr it.doc_type then it.doc_type
                else g.doc_type
    metadata := if g.score < it.score_final ∧ !it.metadata.isEmpty then it.metadata
                else g.metadata
    snippets := g.snippets ++ [{ sec := it.sec, chunk_index := it.chunk_index,
                                 score_vector := some it.score_vector,
                                 score_bm25 := some it.score_bm25,
                                 score := it.score_final,
                                 snippet := makeSnippet it.text query }] }

def upsertGroup (query : String) (groups : List Grouped) (it : Candidate) : List Grouped :=
  if it.doc_id.isEmpty then groups
  else if (groups.find? (fun g => g.doc_id == it.doc_id)).isSome then
    groups.map (fun g => if g.doc_id == it.doc_id then updateGroup query it g else g)
  else
    groups ++ [updateGroup query it
      { doc_id := it.doc_id, doc_type := it.doc_type, score := it.score_final,
        metadata := it.metadata, snippets := [] }]

/-- `_group_results_by_doc`. -/
def groupResultsByDoc (items : List Candidate) (query : String)
    (perDocSnippets : Nat) : List Grouped :=
  sortDescBy (·.score) (((items.foldl (upsertGroup query) []).map
    (fun g => { g with
      snippets := (sortDescBy (·.score) g.snippets).take perDocSnippets })))

/-- the surviving chunks of the primary path: fused-score-sorted pool
candidates after the per-document cap. -/
def survivingChunks (candidates : List Candidate) (maxPerDoc : Nat) : List Candidate :=
  dedupByDocId (sortDescBy (·.score_final) candidates) maxPerDoc

/-- the primary-path result assembly after score fusion: sort by fused
score, cap chunks per document, group, return the top `top_k` grouped
documents. -/
def searchPrimaryTail (candidates : List Candidate) (query : String)
    (topK maxPerDoc perDocSnippets : Nat) : List Grouped :=
  (groupResultsByDoc (survivingChunks candidates maxPerDoc) query perDocSnippets).take topK

/-- pool points → candidates (junk filter plus payload projection). -/
def buildCandidates (points : List PoolPoint) : List Candidate :=
  (points.filter (fun p => !poolJunk (pyStrip p.text.data))).map
    (fun p => { doc_id := p.doc_id, doc_type := p.doc_type, sec := p.sec,
                chunk_index := p.chunk_index, text := p.text, metadata := p.metadata,
                score_vector := p.score, score_bm25 := 0, score_final := 0 })

/-- score fusion (normalised vector and lexical scores, weighted sum). -/
def fuseCandidates (cands : List Candidate) (bm25Raw : List ℚ) (wVec wBm25 : ℚ) :
    List Candidate :=
  (cands.zip ((minmaxNorm (cands.map (·.score_vector))).zip
    ((minmaxNorm bm25Raw).zip bm25Raw))).map
    (fun ⟨c, vn, bn, br⟩ =>
      { c with score_bm25 := br, score_final := wVec * vn + wBm25 * bn })

end SearchService

namespace SearchService

/-- scenario 4 fixtures: two chunks of one document with fused scores
0.9 and 0.4. -/
def scenarioCandA : Candidate :=
  { doc_id := "doc-9", doc_type := some "tdr", sec := some "mission",
    chunk_index := some 0, text := "Premier extrait pertinent du document.",
    metadata := [], score_vector := mkRat 8 10, score_bm25 := mkRat 1 2,
    score_final := mkRat 9 10 }

def scenarioCandB : Candidate :=
  { doc_id := "doc-9", doc_type := some "tdr", sec := some "mission",
    chunk_index := some 1, text := "Second extrait moins pertinent.",
    metadata := [], score_vector := mkRat 3 10, score_bm25 := mkRat 1 5,
    score_final := mkRat 4 10 }

def groupedDummy : Grouped :=
  { doc_id := "", doc_type := none, score := 0, metadata := [], snippets := [] }

end SearchService

namespace SearchService

open ChunkingService (Metadata pyStrip pyLowerChar alphaFr digitCh StrOrList
  sectionsGet joinSep orElseStr)

/-- configuration values read from settings by `search`. -/
structure SearchCfg where
  wVec : ℚ
  wBm25 : ℚ
  poolMult : Nat
  perDocSnippets : Nat
  maxPerDocChunks : Nat
  fallbackMaxDocs : Nat

/-- one row of the fallback's bounded metadata-store scan, together
with the outcome of loading its structured artifact (an exception is
modelled as `.error`). -/
structure FallbackRow where
  id : String
  doc_type : Option String
  language : Option String
  pays : Option String
  bailleur : Option String
  domaine : Option String
  region : Option String
  structured : Except String ChunkingService.StructuredDoc

/-- the external collaborators of `search`: the embed-query +
vector-store retrieval composite (an exception anywhere in the primary
path is an `.error`), the `rank_bm25` scoring library, the positional
keyword scorer `_keyword_score` (whose `1/log(3+p)` float terms are
modelled as an oracle over `ℚ`), and the fallback's DB rows. -/
structure SearchEnv where
  primary : Except String (List PoolPoint)
  bm25 : String → List String → List ℚ
  kwScore : List String → String → ℚ
  rows : List FallbackRow

/-- the search result payload (fields that only one path sets are
optional). -/
structure SearchResult where
  mode : String
  query : String
  top_k : Nat
  filters : List (String × String)
  weights : Option (ℚ × ℚ)
  pool_k : Option Nat
  qdrant_error : Option String
  note : Option String
  results : List Grouped

def strLower (s : String) : String := ⟨s.data.map pyLowerChar⟩

def filtersGet (filters : List (String × String)) (k : String) : Option String :=
  (filters.find? (fun p => p.1 == k)).map (·.2)

def rowGet (row : FallbackRow) (k : String) : Option String :=
  if k = "doc_type" then row.doc_type
  else if k = "pays" then row.pays
  else if k = "bailleur" then row.bailleur
  else if k = "domaine" then row.domaine
  else if k = "region" then row.region
  else if k = "language" then row.language
  else none

/-- `_contains_all_filters`. -/
def containsAllFilters (row : FallbackRow) (filters : List (String × String)) : Bool :=
  ["doc_type", "pays", "bailleur", "domaine", "region", "language"].all (fun k =>
    match filtersGet filters k with
    | none => true
    | some v =>
      if v.isEmpty then true
      else strLower ((rowGet row k).getD "") == strLower v)

def tokenClass (c : Char) : Bool := alphaFr c || digitCh c || c = '\x27'

def pyTokensGo (cur : List Char) : List Char → List (List Char)
  | [] => if 2 ≤ cur.length then [cur.reverse] else []
  | c :: rest =>
    if tokenClass c then pyTokensGo (c :: cur) rest
    else (if 2 ≤ cur.length then [cur.reverse] else []) ++ pyTokensGo [] rest

/-- `_tokens`: maximal runs of two or more word characters
(`[A-Za-zÀ-ÿ0-9']{2,}`), lowercased. -/
def pyTokens (s : String) : List String :=
  (pyTokensGo [] s.data).map (fun t => ⟨t.map pyLowerChar⟩)

/-- falsy test for an optional string-or-list section value. -/
def solFalsy : Option StrOrList → Bool
  | none => true
  | some (.s v) => v.isEmpty
  | some (.l vs) => vs.isEmpty

def solText (v : StrOrList) : String :=
  match v with
  | .s s => s
  | .l vs => ⟨"\n- ".data ++ ChunkingService.joinSep "\n- " ((vs.take 40).map (·.data))⟩

def sectionsHas (secs : List (String × String)) (k : String) : Bool :=
  ((secs.find? (fun p => p.1 == k)).isSome)

/-- the `(section, content)` pairs the fallback scores for one
structured document. -/
def fallbackSectionItems (wanted : String) (d : ChunkingService.StructuredDoc) :
    List (String × Option StrOrList) :=
  if !wanted.isEmpty then
    if solFalsy ((sectionsGet d.sections wanted).map .s) && wanted = "taches" then
      [(wanted, d.taches?)]
    else [(wanted, (sectionsGet d.sections wanted).map .s)]
  else
    ((["mission", "livrables", "planning", "profil", "contexte", "evaluation",
        "candidature", "taches_table"].filter (fun sec => sectionsHas d.sections sec)).map
      (fun sec => (sec, (sectionsGet d.sections sec).map StrOrList.s)))
    ++ (if sectionsHas d.sections "taches" then
          [("taches", (sectionsGet d.sections "taches").map StrOrList.s)]
        else if (d.taches?).isSome then [("taches", d.taches?)]
        else [])

/-- the candidates one fallback row contributes. -/
def fallbackRowCandidates (env : SearchEnv) (qTokens : List String)
    (filters : List (String × String)) (row : FallbackRow) : List Candidate :=
  if !containsAllFilters row filters then []
  else
    match row.structured with
    | .error _ => []
    | .ok d =>
      ((fallbackSectionItems ⟨pyStrip ((filtersGet filters "section").getD "").data⟩ d).filter
        (fun p => !solFalsy p.2)).foldr (fun p acc =>
          match p.2 with
          | none => acc
          | some content =>
            if env.kwScore qTokens (solText content) ≤ 0 then acc
            else
              { doc_id := if d.doc_id.isEmpty then row.id else d.doc_id,
                doc_type := some (orElseStr d.doc_type? (orElseStr row.doc_type "unknown")),
                sec := some p.1, chunk_index := none,
                text := ⟨(solText content).data.take 2000⟩,
                metadata := d.metadata,
                score_vector := 0, score_bm25 := 0,
                score_final := env.kwScore qTokens (solText content) } :: acc) []

/-- `_fallback_search`. -/
def fallbackSearch (env : SearchEnv) (cfg : SearchCfg) (query : String) (topK : Nat)
    (filters : List (String × String)) (qdrantError : String) : SearchResult :=
  { mode := "fallback_lexical", query := query, top_k := topK, filters := filters,
    weights := none, pool_k := none, qdrant_error := some qdrantError,
    note := some ⟨("Fallback limited to last ".data
      ++ UuidM.natDecimal cfg.fallbackMaxDocs ++ " docs for performance.".data)⟩,
    results := groupResultsByDoc
      ((sortDescBy (·.score_final)
        (((env.rows.take cfg.fallbackMaxDocs).map
          (fallbackRowCandidates env
            (if (pyTokens query).isEmpty then [strLower query] else pyTokens query)
            filters)).flatten)).take topK)
      query cfg.perDocSnippets }

/-- `search`: empty queries raise `ValueError`; the primary path runs
inside a `try` whose handler answers with the lexical fallback. -/
def search (env : SearchEnv) (cfg : SearchCfg) (query : String) (topK : Nat)
    (filters : List (String × String)) : Except String SearchResult :=
  if (pyStrip query.data).isEmpty then .error "query is required"
  else
    match env.primary with
    | .error qerr =>
      .ok (fallbackSearch env cfg ⟨pyStrip query.data⟩ topK filters qerr)
    | .ok points =>
      if points.isEmpty then
        .ok { mode := "qdrant_hybrid_bm25", query := ⟨pyStrip query.data⟩,
              top_k := topK, filters := filters,
              weights := some (cfg.wVec, cfg.wBm25),
              pool_k := some (max topK (topK * cfg.poolMult)),
              qdrant_error := none,
              note := some "Qdrant returned 0 points (filters too strict or collection empty).",
              results := [] }
      else
        .ok { mode := "qdrant_hybrid_bm25", query := ⟨pyStrip query.data⟩,
              top_k := topK, filters := filters,
              weights := some (cfg.wVec, cfg.wBm25),
              pool_k := some (max topK (topK * cfg.poolMult)),
              qdrant_error := none, note := none,
              results := searchPrimaryTail
                (fuseCandidates (buildCandidates points)
                  (env.bm25 ⟨pyStrip query.data⟩ ((buildCandidates points).map (·.text)))
                  cfg.wVec cfg.wBm25)
                ⟨pyStrip query.data⟩ topK cfg.maxPerDocChunks cfg.perDocSnippets }

def fallbackFixtureDoc : ChunkingService.StructuredDoc :=
  { doc_id := "doc-f", doc_type? := some "tdr", metadata_doc_type? := none,
    metadata := [], sections := [("mission", "Texte de mission du document.")],
    taches? := none, ami_fields? := none }

def fallbackFixtureRow : FallbackRow :=
  { id := "doc-f", doc_type := some "tdr", language := none, pays := none,
    bailleur := none, domaine := none, region := none,
    structured := .ok fallbackFixtureDoc }

/-- a concrete environment whose primary path fails. -/
def envPrimaryDown : SearchEnv :=
  { primary := .error "qdrant connection refused",
    bm25 := fun _ _ => [], kwScore := fun _ _ => 1,
    rows := [fallbackFixtureRow] }

def cfgDefault : SearchCfg :=
  { wVec := mkRat 7 10, wBm25 := mkRat 3 10, poolMult := 8, perDocSnippets := 3,
    maxPerDocChunks := 3, fallbackMaxDocs := 50 }

end SearchService

-- ===================================================================
-- rag_service.py: the answer assembler
-- ===================================================================

namespace RagService

open ChunkingService (Metadata pyStrip junkFull hasAlpha4 alphaFr digitCh
  strStartsWith orElseStr joinSep)
open SearchService (Grouped Snip sortDescBy SearchEnv SearchCfg SearchResult)

/-- the rag settings read by `_build_context_from_grouped_results`. -/
structure RagCfg where
  maxDocs : Nat
  perDoc : Nat
  maxChars : Nat
  maxChunkChars : Nat
  expandRadius : Nat
  deriving DecidableEq, Repr

/-- the payload fields of one retrieved qdrant point. -/
structure RagPayload where
  text : String
  doc_type : Option String
  metadata : Metadata
  deriving DecidableEq, Repr

/-- `chunks_payload.get(key) or {}` when the key is absent. -/
def emptyPayload : RagPayload := { text := "", doc_type := none, metadata := [] }

/-- one entry of `base_items`. -/
structure BaseItem where
  doc_id : String
  doc_type : String
  metadata : Metadata
  sec : String
  chunk_index : Option Nat
  score : ℚ
  snippet : String
  deriving DecidableEq, Repr

/-- one entry of `sources`. -/
structure RagSource where
  doc_id : String
  doc_type : Option String
  sec : String
  chunk_index : Option Nat
  score : Option ℚ
  metadata : Metadata
  snippet : String
  deriving DecidableEq, Repr

/-- the per-snippet loop of step 1 (skip snippets with a falsy section). -/
def snipItemsGo (docId docType : String) (meta : Metadata) : List Snip → List BaseItem
  | [] => []
  | s :: rest =>
    match s.sec with
    | none => snipItemsGo docId docType meta rest
    | some sec =>
      if sec.isEmpty then snipItemsGo docId docType meta rest
      else { doc_id := docId, doc_type := docType, metadata := meta, sec := sec,
             chunk_index := s.chunk_index, score := s.score, snippet := s.snippet }
           :: snipItemsGo docId docType meta rest

/-- one selected document\x27s base items: its snippets re-sorted by score
descending, capped at `per_doc`. -/
def snipItems (perDoc : Nat) (d : Grouped) : List BaseItem :=
  snipItemsGo d.doc_id (orElseStr d.doc_type "unknown") d.metadata
    ((sortDescBy (·.score) d.snippets).take perDoc)

/-- step 1: `base_items` over the first `max_docs` grouped documents
(documents with a falsy doc_id are skipped). -/
def baseItemsOf (maxDocs perDoc : Nat) (grouped : List Grouped) : List BaseItem :=
  List.flatten ((grouped.take maxDocs).map
    (fun d => if d.doc_id.isEmpty then [] else snipItems perDoc d))

/-- the int-indexed keys of the base items, in order (these are both the
initial contents of `wanted` and step 4\x27s `base_keys`). -/
def baseKeys : List BaseItem → List (String × String × Nat)
  | [] => []
  | it :: rest =>
    match it.chunk_index with
    | some i => (it.doc_id, it.sec, i) :: baseKeys rest
    | none => baseKeys rest

/-- step 2\x27s best-hit scan: first int-indexed item with strictly
maximal score, starting from `best_score = -1.0`. -/
def bestHit : List BaseItem → Option BaseItem × ℚ → Option BaseItem × ℚ
  | [], st => st
  | it :: rest, st =>
    match it.chunk_index with
    | none => bestHit rest st
    | some _ =>
      if st.2 < it.score then bestHit rest (some it, it.score) else bestHit rest st

/-- `_neighbor_refs`: for each offset `1..radius` the left then the
right neighbour, negative indices dropped. -/
def neighborRefs (docId sec : String) (center radius : Nat) :
    List (String × String × Nat) :=
  List.flatten ((List.range radius).map (fun i =>
    (if i + 1 ≤ center then [(docId, sec, center - (i + 1))] else [])
      ++ [(docId, sec, center + (i + 1))]))

/-- step 2: neighbour expansion around the best hit, skipped for
`table:*` and `tache:item` sections. -/
def expandRefs (items : List BaseItem) (radius : Nat) : List (String × String × Nat) :=
  match (bestHit items (none, -1)).1 with
  | none => []
  | some b =>
    if strStartsWith b.sec "table:" || b.sec == "tache:item" then []
    else
      match b.chunk_index with
      | some i => neighborRefs b.doc_id b.sec i radius
      | none => []

/-- stable de-duplication (`dict.fromkeys` / the `seen` sets). -/
def dedupKeys (seen : List (String × String × Nat)) :
    List (String × String × Nat) → List (String × String × Nat)
  | [] => []
  | k :: rest =>
    if seen.contains k then dedupKeys seen rest
    else k :: dedupKeys (k :: seen) rest

/-- step 4: `ordered_qdrant_keys` = de-duplicated base keys followed by
the not-yet-seen entries of the de-duplicated `wanted` list. -/
def orderedKeysOf (items : List BaseItem) (radius : Nat) :
    List (String × String × Nat) :=
  dedupKeys [] (dedupKeys [] (baseKeys items)
    ++ dedupKeys [] (baseKeys items ++ expandRefs items radius))

/-- the two junk guards of step 5, on the stripped payload text (both
only fire on a non-empty text). -/
def ragJunk (tt : List Char) : Bool :=
  junkFull tt
    || (!tt.isEmpty
        && decide ((tt.filter alphaFr).length + (tt.filter digitCh).length < 12)
        && !hasAlpha4 tt)

/-- the base item matching a qdrant key (for the snippet fallback and
the source score). -/
def keyBaseItem (items : List BaseItem) (k : String × String × Nat) : Option BaseItem :=
  items.find? (fun x => x.doc_id == k.1 && x.sec == k.2.1 && x.chunk_index == some k.2.2)

def payloadOf (pl : (String × String × Nat) → Option RagPayload)
    (k : String × String × Nat) : RagPayload :=
  (pl k).getD emptyPayload

/-- the stripped payload text of a key. -/
def step5Ptext (pl : (String × String × Nat) → Option RagPayload)
    (k : String × String × Nat) : List Char :=
  pyStrip (payloadOf pl k).text.data

/-- the resolved text of a key: the stripped payload text, else the
matching base item\x27s stripped snippet. -/
def step5Text (pl : (String × String × Nat) → Option RagPayload)
    (items : List BaseItem) (k : String × String × Nat) : List Char :=
  if (step5Ptext pl k).isEmpty then
    pyStrip (((keyBaseItem items k).map (·.snippet)).getD "").data
  else step5Ptext pl k

/-- a key is skipped when the payload text is junk or the resolved text
is empty. -/
def step5Skip (pl : (String × String × Nat) → Option RagPayload)
    (items : List BaseItem) (k : String × String × Nat) : Bool :=
  ragJunk (step5Ptext pl k) || (step5Text pl items k).isEmpty

/-- `full_text[:max_chunk_chars]` under the truthiness guard
`if max_chunk_chars and len(full_text) > max_chunk_chars`. -/
def truncChunk (maxChunkChars : Nat) (t : List Char) : List Char :=
  if maxChunkChars ≠ 0 && decide (maxChunkChars < t.length) then t.take maxChunkChars
  else t

/-- the inline provenance tag
`"\n[SOURCE doc_id=... section=... chunk_index=...]\n"`. -/
def sourceTag (docId sec ci : String) : List Char :=
  "\n[SOURCE doc_id=".data ++ docId.data ++ " section=".data ++ sec.data
    ++ " chunk_index=".data ++ ci.data ++ "]\n".data

def step5Block (cfg : RagCfg) (pl : (String × String × Nat) → Option RagPayload)
    (items : List BaseItem) (k : String × String × Nat) : List Char :=
  truncChunk cfg.maxChunkChars (step5Text pl items k)
    ++ sourceTag k.1 k.2.1 ⟨UuidM.natDecimal k.2.2⟩

def step5Source (pl : (String × String × Nat) → Option RagPayload)
    (items : List BaseItem) (k : String × String × Nat) : RagSource :=
  { doc_id := k.1, doc_type := (payloadOf pl k).doc_type, sec := k.2.1,
    chunk_index := some k.2.2,
    score := (keyBaseItem items k).map (·.score),
    metadata := (payloadOf pl k).metadata,
    snippet := ⟨(payloadOf pl k).text.data.take 400⟩ }

/-- step 5\x27s emission loop: skip junk/empty keys, stop (`break`) at the
first block that would push the running total past `max_chars`. -/
def emit5 (cfg : RagCfg) (pl : (String × String × Nat) → Option RagPayload)
    (items : List BaseItem) :
    List (String × String × Nat) → List (List Char) × List RagSource × Nat →
      List (List Char) × List RagSource × Nat
  | [], st => st
  | k :: rest, (parts, srcs, total) =>
    if step5Skip pl items k then emit5 cfg pl items rest (parts, srcs, total)
    else if cfg.maxChars < total + (step5Block cfg pl items k).length then
      (parts, srcs, total)
    else
      emit5 cfg pl items rest
        (parts ++ [step5Block cfg pl items k],
         srcs ++ [step5Source pl items k],
         total + (step5Block cfg pl items k).length)

def step6Text (it : BaseItem) : List Char := pyStrip it.snippet.data

def step6Block (cfg : RagCfg) (it : BaseItem) : List Char :=
  truncChunk cfg.maxChunkChars (step6Text it) ++ sourceTag it.doc_id it.sec "None"

def step6Source (cfg : RagCfg) (it : BaseItem) : RagSource :=
  { doc_id := it.doc_id, doc_type := some it.doc_type, sec := it.sec,
    chunk_index := none, score := some it.score, metadata := it.metadata,
    snippet := ⟨(truncChunk cfg.maxChunkChars (step6Text it)).take 400⟩ }

/-- step 6: the lexical-only sources (base items without a chunk index),
with the same budget `break`. -/
def emit6 (cfg : RagCfg) :
    List BaseItem → List (List Char) × List RagSource × Nat →
      List (List Char) × List RagSource × Nat
  | [], st => st
  | it :: rest, (parts, srcs, total) =>
    if (it.chunk_index).isSome then emit6 cfg rest (parts, srcs, total)
    else if (step6Text it).isEmpty then emit6 cfg rest (parts, srcs, total)
    else if cfg.maxChars < total + (step6Block cfg it).length then (parts, srcs, total)
    else
      emit6 cfg rest
        (parts ++ [step6Block cfg it], srcs ++ [step6Source cfg it],
         total + (step6Block cfg it).length)

/-- `_build_context_from_grouped_results`, as the final
`(context_parts, sources, total)` state. -/
def buildContextParts (cfg : RagCfg)
    (pl : (String × String × Nat) → Option RagPayload) (grouped : List Grouped) :
    List (List Char) × List RagSource × Nat :=
  emit6 cfg (baseItemsOf cfg.maxDocs cfg.perDoc grouped)
    (emit5 cfg pl (baseItemsOf cfg.maxDocs cfg.perDoc grouped)
      (orderedKeysOf (baseItemsOf cfg.maxDocs cfg.perDoc grouped) cfg.expandRadius)
      ([], [], 0))

/-- the returned context string: `"\n---\n".join(context_parts)`. -/
def ragContext (cfg : RagCfg)
    (pl : (String × String × Nat) → Option RagPayload) (grouped : List Grouped) :
    String :=
  ⟨joinSep "\n---\n" (buildContextParts cfg pl grouped).1⟩

/-- the prompt `answer` builds around the question and the context. -/
def ragPrompt (query context : String) : String :=
  ⟨"Tu es un assistant.\nRéponds uniquement avec les informations présentes dans le CONTEXTE.\nSi la réponse n\x27est pas dans le CONTEXTE, réponds exactement: Je ne sais pas.\nRéponse attendue: une réponse concise.\n\nQUESTION:\n".data
    ++ query.data ++ "\n\nCONTEXTE:\n".data ++ context.data ++ "\n\nRÉPONSE:".data⟩

/-- the collaborators of `answer`: the search layer\x27s environment and
settings, the rag settings, the qdrant retrieve of
`_fetch_chunks_by_ids` (a pure key → payload oracle), and the LLM call
(`_ollama_generate` catches all its own exceptions and returns a
string). -/
structure RagEnv where
  searchEnv : SearchEnv
  searchCfg : SearchCfg
  ragCfg : RagCfg
  chunks : (String × String × Nat) → Option RagPayload
  llm : String → String

/-- the payload `answer` returns. -/
structure AnswerPayload where
  query : String
  filters : List (String × String)
  mode : String
  top_k : Nat
  search_mode : String
  answer : String
  sources : List RagSource
  context_chars : Nat

/-- `answer`: strips the query, calls `search` (with no surrounding
try/except, so a `ValueError` from `search` propagates), builds the
context, calls the LLM and assembles the payload. -/
def answer (env : RagEnv) (query : String) (topK : Nat)
    (filters : List (String × String)) : Except String AnswerPayload :=
  match SearchService.search env.searchEnv env.searchCfg ⟨pyStrip query.data⟩ topK filters with
  | .error e => .error e
  | .ok sr =>
    .ok { query := ⟨pyStrip query.data⟩, filters := filters,
          mode := "rag_option_b_qdrant_retrieve_chunks", top_k := topK,
          search_mode := sr.mode,
          answer := env.llm (ragPrompt ⟨pyStrip query.data⟩
            (ragContext env.ragCfg env.chunks sr.results)),
          sources := (buildContextParts env.ragCfg env.chunks sr.results).2.1,
          context_chars := (ragContext env.ragCfg env.chunks sr.results).length }

/-- the emission invariant of steps 5 and 6: the running total is the
sum of the emitted parts\x27 lengths, never exceeds the budget, and every
part satisfies the block predicate `P`. -/
def EmitInv (cfg : RagCfg) (P : List Char → Prop)
    (st : List (List Char) × List RagSource × Nat) : Prop :=
  st.2.2 = (st.1.map List.length).sum
  ∧ st.2.2 ≤ cfg.maxChars
  ∧ ∀ p ∈ st.1, P p

/-- a context block traced to its emitting source: either a step-5
qdrant key — the block is that key\x27s resolved text, truncated, followed
by the tag naming exactly that key\x27s doc_id, section and decimal
chunk_index — or a step-6 lexical base item (no chunk index; its
stripped snippet, truncated, and a tag naming its doc_id, section and
`chunk_index=None`). -/
def BlockOfSource (cfg : RagCfg) (pl : (String × String × Nat) → Option RagPayload)
    (items : List BaseItem) (keys : List (String × String × Nat))
    (p : List Char) : Prop :=
  (∃ k ∈ keys,
    p = truncChunk cfg.maxChunkChars (step5Text pl items k)
        ++ sourceTag k.1 k.2.1 ⟨UuidM.natDecimal k.2.2⟩)
  ∨ (∃ it ∈ items, it.chunk_index = none
      ∧ p = truncChunk cfg.maxChunkChars (step6Text it)
          ++ sourceTag it.doc_id it.sec "None")

/-- scenario fixtures for the 500-character budget: one document, two
snippets whose payload chunks hold 300 characters each. -/
def snipC0 : Snip :=
  ⟨some "mission", some 0, none, none, mkRat 9 10, "premier extrait"⟩

def snipC1 : Snip :=
  ⟨some "mission", some 1, none, none, mkRat 8 10, "second extrait"⟩

def groupedC : Grouped := ⟨"doc-c", some "tdr", mkRat 9 10, [], [snipC0, snipC1]⟩

def textA : String := ⟨List.replicate 300 'a'⟩

def textB : String := ⟨List.replicate 300 'b'⟩

def plC : (String × String × Nat) → Option RagPayload := fun k =>
  if k = ("doc-c", "mission", 0) then some ⟨textA, some "tdr", []⟩
  else if k = ("doc-c", "mission", 1) then some ⟨textB, some "tdr", []⟩
  else none

def cfg500 : RagCfg := ⟨1, 2, 500, 2500, 0⟩

/-- a concrete full environment for `answer`. -/
def ragEnvFixture : RagEnv :=
  { searchEnv := SearchService.envPrimaryDown, searchCfg := SearchService.cfgDefault,
    ragCfg := cfg500, chunks := plC, llm := fun _ => "Je ne sais pas." }

end RagService

-- ===================================================================
-- structuring_service.py / ami_structuring_service.py: section maps
-- ===================================================================

namespace StructuringService

open ChunkingService (pyStrip pyLowerChar splitLinesPy sectionsGet joinSep)

/-- the keys of the `out` dict literal of `split_into_sections`, in
insertion order. -/
def canonicalKeys : List String :=
  ["contexte", "mission", "taches", "livrables", "planning", "profil",
   "competences", "evaluation", "candidature", "taches_table"]

def initSections : List (String × String) := canonicalKeys.map (fun k => (k, ""))

/-- Python `sections.get(k) or ""`. -/
def dictGet (d : List (String × String)) (k : String) : String :=
  (sectionsGet d k).getD ""

/-- Python `sections[k] = v` on an insertion-ordered dict: update in
place if present, append otherwise. -/
def dictSet : List (String × String) → String → String → List (String × String)
  | [], k, v => [(k, v)]
  | (k', v') :: rest, k, v =>
    if k' == k then (k, v) :: rest else (k', v') :: dictSet rest k v

/-- the `TITLE_TO_SECTION` pattern table (patterns carried verbatim;
the regex engine itself is a parameter of the model). -/
def TITLE_TO_SECTION : List (String × String) := [
  ("\\b(dossier\\s+(à|a)\\s+soumettre|pi[eè]ces?\\s+(à|a)\\s+fournir|modalit[eé]s?\\s+de\\s+soumission|soumission|candidature|postuler|comment\\s+postuler|adresse\\s+e-?mail|courrier\\s+[eé]lectronique|deadline|date\\s+limite|dernier\\s+d[eé]lai|date\\s+de\\s+cl[oô]ture|contact|contacts)\\b", "candidature"),
  ("\\b(crit[eè]res?\\s+d[’\x27]?[eé]valuation|grille\\s+d[’\x27]?[eé]valuation|m[eé]thode\\s+d[’\x27]?[eé]valuation|modalit[eé]s?\\s+d[’\x27]?[eé]valuation|notation|bar[eè]me|score|pond[eé]ration|s[eé]lection|processus\\s+de\\s+s[eé]lection|analyse\\s+des\\s+dossiers|proposition\\s+technique|proposition\\s+financi[eè]re|offre\\s+technique|offre\\s+financi[eè]re)\\b", "evaluation"),
  ("\\b(tâches?|taches?|tasks?|activit[eé]s?|activities?|responsabilit[eé]s?|responsibilities?|r[oô]les?|role|scope\\s+des\\s+activit[eé]s?)\\b", "taches"),
  ("\\b(contexte|background|justification|pr[eé]sentation|presentation|introduction|cadre\\s+g[eé]n[eé]ral|contexte\\s+g[eé]n[eé]ral)\\b", "contexte"),
  ("\\b(livrables?|deliverables?|outputs?|produits?\\s+attendus?|r[eé]sultats?\\s+attendus?|expected\\s+results?|documents?\\s+(à|a)\\s+remettre|remise\\s+des\\s+livrables?)\\b", "livrables"),
  ("\\b(planning|calendrier|timeline|chronogramme|plan\\s+de\\s+travail|work\\s+plan)\\b", "planning"),
  ("\\b(profil|profile|qualifications?|comp[eé]tences?\\s+requises?|exp[eé]rience|experience|pr[eé]requis|prerequis|formation|dipl[oô]me|expertise\\s+requise|requirements?|required\\s+qualifications?)\\b", "profil"),
  ("\\b(comp[eé]tences?|skills?|mots[-\\s]?cl[eé]s?|expertise)\\b", "competences"),
  ("\\b(mission|objectifs?|objective|objectives|description|prestations?|mandat|scope\\s+of\\s+work|terms?\\s+of\\s+reference|termes?\\s+de\\s+r[eé]f[eé]rence)\\b", "mission"),
  ("\\b(m[eé]thodolog\\w*|approche|methodology|approach)\\b", "mission"),
  ("\\b(r[eé]sultat\\w*|outcomes?)\\b", "mission")]

/-- `_title_to_section`\x27s scan over the table: the first entry whose
regex matches (`mtch`) or whose compacted first token occurs in the
compacted title (`tok`) gives its section name; every return value is a
section name drawn from the table. -/
def t2sGo (mtch tok : String → String → Bool) (s : String) :
    List (String × String) → Option String
  | [] => none
  | (pat, sec) :: rest =>
    if mtch pat s then some sec
    else if tok pat s then some sec
    else t2sGo mtch tok s rest

/-- `_title_to_section` (`mtch`/`tok` parameterise the two regex-based
tests; the lowered, stripped title is the real computation). -/
def titleToSection (mtch tok : String → String → Bool) (title : String) :
    Option String :=
  if (pyStrip title.data).isEmpty then none
  else t2sGo mtch tok ⟨(pyStrip title.data).map pyLowerChar⟩ TITLE_TO_SECTION

/-- the `(i, line.strip())` title spans of the line list, under the
title predicate. -/
def titleSpansGo (isTitle : String → Bool) (i : Nat) :
    List (List Char) → List (Nat × String)
  | [] => []
  | l :: rest =>
    if isTitle ⟨l⟩ then (i, ⟨pyStrip l⟩) :: titleSpansGo isTitle (i + 1) rest
    else titleSpansGo isTitle (i + 1) rest

/-- `"\n".join(lines[start_i + 1:end_i]).strip()`. -/
def spanBlock (lines : List (List Char)) (startI endI : Nat) : String :=
  ⟨pyStrip (joinSep "\n" ((lines.drop (startI + 1)).take (endI - (startI + 1))))⟩

/-- one title span\x27s assignment into `out`: append the block to a
non-empty section, else (re)place it. -/
def assignSpan (out : List (String × String)) (sec : Option String)
    (block : String) : List (String × String) :=
  match sec with
  | none => out
  | some s =>
    if !(dictGet out s).isEmpty then
      dictSet out s ⟨pyStrip ((dictGet out s).data ++ "\n\n".data ++ block.data)⟩
    else dictSet out s block

/-- the span loop of `split_into_sections`: each span\x27s block runs to
the next title (or the end of the line list). -/
def processSpans (t2s : String → Option String) (lines : List (List Char))
    (total : Nat) : List (Nat × String) → List (String × String) →
    List (String × String)
  | [], out => out
  | (i, title) :: rest, out =>
    processSpans t2s lines total rest
      (assignSpan out (t2s title)
        (spanBlock lines i (match rest with | [] => total | (j, _) :: _ => j)))

def KWcontexte : List String :=
  ["contexte", "background", "justification", "introduction", "présentation",
   "presentation", "cadre", "contexte général"]

def KWmission : List String :=
  ["mission", "objectifs", "objectif", "description", "prestations", "mandat",
   "scope of work", "terms of reference", "termes de référence", "méthodologie",
   "methodologie", "approche", "résultats", "resultats"]

def KWtaches : List String :=
  ["tâches", "taches", "tasks", "activités", "activites", "activities",
   "responsabilités", "responsabilites", "rôles", "roles"]

def KWlivrables : List String :=
  ["livrables", "livrable", "deliverable", "deliverables", "outputs",
   "produits attendus", "documents à remettre", "remise des livrables",
   "rapport final", "rapport analytique", "policy brief", "feuille de route"]

def KWplanning : List String :=
  ["planning", "calendrier", "timeline", "chronogramme", "durée", "duree",
   "date", "dates", "délai", "delai"]

def KWprofil : List String :=
  ["profil", "qualifications", "qualification", "profile", "expérience",
   "experience", "formation", "diplôme", "diplome", "compétences requises",
   "competences requises", "prérequis", "prerequis", "requirements",
   "required qualifications"]

def KWcompetences : List String :=
  ["compétences", "competences", "skills", "expertise", "mots-clés", "mots cles"]

def KWevaluation : List String :=
  ["critères d\x27évaluation", "critères", "criteres", "grille d\x27évaluation",
   "notation", "barème", "bareme", "pondération", "ponderation",
   "proposition technique", "proposition financière", "proposition financiere",
   "offre technique", "offre financière", "offre financiere", "sélection",
   "selection", "analyse des dossiers"]

def KWcandidature : List String :=
  ["dossier à soumettre", "dossier a soumettre", "pièces à fournir",
   "pieces a fournir", "soumission", "candidature", "postuler",
   "modalités de soumission", "adresse", "email", "e-mail",
   "courrier électronique", "courrier electronique", "dernier délai",
   "dernier delai", "date limite", "deadline", "contact"]

def EXlivrables : List String :=
  ["notation", "barème", "bareme", "pondération", "ponderation",
   "proposition financière", "offre financière", "critères d\x27évaluation"]

def EXprofil : List String :=
  ["proposition financière", "offre financière", "pondération", "barème",
   "notation"]

def EXmission : List String :=
  ["dossier à soumettre", "soumission", "postuler", "adresse e-mail",
   "deadline", "date limite"]

def EXplanning : List String :=
  ["pondération", "barème", "notation", "proposition technique",
   "proposition financière"]

/-- one step of `fill_empty_sections_fallback`: assign the window text
only when the section is blank. -/
def fillStep (k v : String) (d : List (String × String)) : List (String × String) :=
  if (pyStrip (dictGet d k).data).isEmpty then dictSet d k v else d

/-- `fill_empty_sections_fallback` (`bw` parameterises `_best_window`,
applied to the call sites\x27 keyword/exclude lists and window sizes). -/
def fillEmptySectionsFallback
    (bw : String → List String → List String → Nat → String)
    (t : String) (sections : List (String × String)) : List (String × String) :=
  if (pyStrip t.data).isEmpty then sections
  else
    fillStep "competences" (bw t KWcompetences [] 1800)
      (fillStep "mission" (bw t KWmission EXmission 3200)
        (fillStep "taches" (bw t KWtaches [] 2800)
          (fillStep "profil" (bw t KWprofil EXprofil 2800)
            (fillStep "planning" (bw t KWplanning EXplanning 2400)
              (fillStep "livrables" (bw t KWlivrables EXlivrables 3000)
                (fillStep "evaluation" (bw t KWevaluation [] 2600)
                  (fillStep "candidature" (bw t KWcandidature [] 2400)
                    (fillStep "contexte" (bw t KWcontexte [] 2600) sections))))))))

/-- `split_into_sections`, parameterised by the purely text-to-text
collaborators: `nt` = `normalize_text`, `nft` = `normalize_for_titles`,
`isTitle` = `_is_title_line`, `mtch`/`tok` = the regex matchers of
`_title_to_section`, `bw` = `_best_window`. -/
def split_into_sections (nt nft : String → String) (isTitle : String → Bool)
    (mtch tok : String → String → Bool)
    (bw : String → List String → List String → Nat → String)
    (text : String) : List (String × String) :=
  if (titleSpansGo isTitle 0 (splitLinesPy (nft (nt text)).data)).isEmpty then
    fillEmptySectionsFallback bw (nft (nt text))
      (dictSet initSections "mission" ⟨pyStrip (nft (nt text)).data⟩)
  else
    fillEmptySectionsFallback bw (nft (nt text))
      (processSpans (titleToSection mtch tok)
        (splitLinesPy (nft (nt text)).data)
        (splitLinesPy (nft (nt text)).data).length
        (titleSpansGo isTitle 0 (splitLinesPy (nft (nt text)).data))
        initSections)

/-- smallest element of a nonempty list of naturals (`min(positions)`). -/
def minNat? : List Nat → Option Nat
  | [] => none
  | n :: rest =>
    match minNat? rest with
    | none => some n
    | some m => some (min n m)

/-- `_extract_between`: earliest start marker, earliest end marker found
from `start + 10`, else `min(len(t), start + max_len)`; the slice,
stripped. -/
def extractBetween (text : String) (startMarkers endMarkers : List String)
    (maxLen : Nat) : String :=
  match minNat? (startMarkers.filterMap (fun m =>
      SearchService.findSub (m.data.map pyLowerChar) (text.data.map pyLowerChar))) with
  | none => ""
  | some start =>
    ⟨pyStrip ((text.data.drop start).take
      (((minNat? (endMarkers.filterMap (fun em =>
          (SearchService.findSub (em.data.map pyLowerChar)
            ((text.data.map pyLowerChar).drop (start + 10))).map
            (· + (start + 10))))).getD
        (min text.data.length (start + maxLen))) - start))⟩

/-- `extract_selection_method`. -/
def extract_selection_method (text : String) : String :=
  if (SearchService.findSub "qcbs".data (text.data.map pyLowerChar)).isSome then "QCBS"
  else if (SearchService.findSub "sfqc".data (text.data.map pyLowerChar)).isSome then "SFQC"
  else ""

def amiContexte (full : String) : String :=
  extractBetween full
    ["république", "programme", "prêt", "pret", "appel à manifestations",
     "manifestations d’intérêt", "manifestations d\x27interet"]
    ["les services comprennent", "les services incluent", "le ministère",
     "invite les firmes", "invite les firmes de consultants"] 2400

def amiMission (full : String) : String :=
  extractBetween full
    ["les services comprennent", "les services incluent",
     "les services comprennent :"]
    ["les termes de référence", "le ministère", "invite les firmes",
     "les critères", "criteres"] 2400

def amiProfil (full : String) : String :=
  extractBetween full
    ["invite les firmes", "invite les firmes de consultants",
     "les consultants intéressés", "les consultants interesses"]
    ["les critères", "criteres", "manifestations d\x27intérêt",
     "manifestations d’interêt", "doivent être envoyées",
     "doivent etre envoyees"] 2600

def amiCriteres (full : String) : String :=
  extractBetween full
    ["les critères", "criteres", "barème", "bareme", "poids",
     "tableau suivant"]
    ["de plus amples informations", "adresse", "doivent être envoyées",
     "doivent etre envoyees", "au plus tard", "avant le"] 3000

/-- `_extract_candidature_block` at `structure_ami`\x27s `max_len=2400`. -/
def amiCandidature (full : String) : String :=
  extractBetween full
    ["doivent être envoyées", "doivent etre envoyees", "envoyées à",
     "envoyees a", "adresse", "courrier électronique",
     "courrier electronique", "email", "e-mail",
     "manifestations d’intérêt doivent", "manifestations d\x27interet doivent"]
    ["de plus amples informations", "pour toute information", "signé",
     "fait à"] 2400

def amiLivrables (full : String) : String :=
  extractBetween full
    ["doivent fournir", "doivent fournir les informations", "brochures",
     "références", "references", "attestations", "certifications"]
    ["les critères", "criteres", "de plus amples informations", "adresse"]
    2000

def amiPlanning (full : String) : String :=
  extractBetween full
    ["date limite", "deadline", "au plus tard", "avant le"]
    ["adresse", "email", "e-mail", "de plus amples informations"] 1800

/-- the regex-backed extractors of `structure_ami` (emails, deadline,
numbered/bulleted services, skill keywords), as oracles. -/
structure AmiRegexEnv where
  emails : String → List String
  deadline : String → String
  services : String → List String
  skills : String → List String

/-- the dict `structure_ami` returns. -/
structure AmiStructured where
  doc_type : String
  sections : List (String × String)
  taches : List String
  competences : List String
  deadline : String
  selection_method : String
  emails : List String
  criteres_selection : String

/-- `structure_ami`. -/
def structure_ami (env : AmiRegexEnv) (text : String) : AmiStructured :=
  { doc_type := "ami",
    sections := [
      ("contexte", amiContexte text),
      ("mission", amiMission text),
      ("taches", ""),
      ("livrables", amiLivrables text),
      ("planning", amiPlanning text),
      ("profil", amiProfil text),
      ("competences", ""),
      ("evaluation", amiCriteres text),
      ("candidature", amiCandidature text),
      ("taches_table", "")],
    taches := env.services (if (amiMission text).isEmpty then text else amiMission text),
    competences := env.skills text,
    deadline := env.deadline text,
    selection_method := extract_selection_method text,
    emails := env.emails text,
    criteres_selection := amiCriteres text }

end StructuringService

-- ===================================================================
-- proof-level invariant definitions and sampled domains
-- ===================================================================

namespace UuidM

/-- the sampled (doc_id, section, chunk_index) domain used to check
that changing any one component changes the derived identifier. -/
def sampleTriples : List (String × String × Nat) :=
  [ ("123e4567-e89b-12d3-a456-426614174000", "mission", 0),
    ("123e4567-e89b-12d3-a456-426614174000", "mission", 1),
    ("123e4567-e89b-12d3-a456-426614174000", "contexte", 0),
    ("123e4567-e89b-12d3-a456-426614174000", "contexte", 1),
    ("00000000-0000-0000-0000-000000000000", "mission", 0),
    ("00000000-0000-0000-0000-000000000000", "mission", 1),
    ("00000000-0000-0000-0000-000000000000", "contexte", 0),
    ("00000000-0000-0000-0000-000000000000", "contexte", 1) ]

end UuidM

namespace ChunkingService

/-- the invariant maintained by successive `add` calls: each section
counter equals the number of chunks already emitted for that section,
per-section chunk indices are exactly `0, 1, 2, …` in emission order,
and all chunks carry the same document id. -/
def AddInv (docId : String) (st : AddState) : Prop :=
  (∀ s : String, ctrGet st.counters s = (st.chunks.filter (fun c => c.sec == s)).length)
  ∧ (∀ s : String, (st.chunks.filter (fun c => c.sec == s)).map (·.chunk_index)
      = List.range (st.chunks.filter (fun c => c.sec == s)).length)
  ∧ (∀ c ∈ st.chunks, c.doc_id = docId)

end ChunkingService

namespace SearchService

/-- descending sortedness by a rational key. -/
def SortedDescBy {α : Type} (key : α → ℚ) (l : List α) : Prop :=
  List.Pairwise (fun a b => key b ≤ key a) l

/-- invariant of the `grouped` dict fold: every group's score is
witnessed by a processed chunk of its document and dominates all
processed chunks of its document; every processed chunk with a
document id has a group. -/
def GroupInv (done : List Candidate) (groups : List Grouped) : Prop :=
  (∀ g ∈ groups, ¬g.doc_id.isEmpty = true)
  ∧ (∀ g ∈ groups, ∃ it ∈ done, it.doc_id = g.doc_id ∧ it.score_final = g.score)
  ∧ (∀ g ∈ groups, ∀ it ∈ done, it.doc_id = g.doc_id → it.score_final ≤ g.score)
  ∧ (∀ it ∈ done, ¬it.doc_id.isEmpty = true → ∃ g ∈ groups, g.doc_id = it.doc_id)

end SearchService

-- ===================================================================
-- THEOREMS
-- ===================================================================

namespace DocTypeService

open PyStr

theorem detectN_eq_rule (raw : List Nat) :
    detectN raw =
      specDecisionRule (amiScore (pyNorm raw)) (tdrScore (pyNorm raw))
        (highConfAmi (pyNorm raw)) := rfl

theorem pyLowerCp_upperLatinCp (n : Nat) :
    pyLowerCp (upperLatinCp n) = pyLowerCp n := by
  unfold pyLowerCp upperLatinCp
  split_ifs <;> omega

theorem pyNorm_upper (t : List Nat) :
    pyNorm (t.map upperLatinCp) = pyNorm t := by
  unfold pyNorm
  congr 1
  induction t with
  | nil => rfl
  | cons a l ih => simp only [List.map_cons, pyLowerCp_upperLatinCp, ih]

theorem detectN_case_insensitive (t : List Nat) :
    detectN (t.map upperLatinCp) = detectN t := by
  unfold detectN
  rw [pyNorm_upper]

/-- C7: `detect_doc_type` is a total deterministic function implementing
exactly the ordered decision rule of the spec — `ami` if the
interest-marker score is at least 2 and at least the reference-marker
score, else `tdr` if the reference-marker score is at least 2, else
`ami` on the high-confidence interest phrases, else `other`; and the
concrete text containing "QCBS" and "manifestations d'intérêt" twice
classifies as `ami`. -/
theorem C7_detect_doc_type_decision_rule :
    (∀ text : String,
        detectDocType text =
          specDecisionRule (amiScore (pyNorm (s2c text)))
            (tdrScore (pyNorm (s2c text))) (highConfAmi (pyNorm (s2c text))))
    ∧ detectDocType
        "QCBS manifestations d\x27intérêt manifestations d\x27intérêt" = "ami" :=
  ⟨fun _ => rfl, by decide⟩

/-- C8 counterexample: marker matching is NOT accent-insensitive.  The
two texts below differ only in accents (è/é/ê versus e); the accented
one matches the markers "barème de notation" and "manifester leur
intérêt" (interest score 2, classified `ami`) while the unaccented one
matches only "manifester leur interet" (interest score 1, classified
`other`), refuting the claim that an accented spelling and the
corresponding unaccented spelling always contribute the same score. -/
theorem C8_counterexample_accent_sensitive :
    detectDocType "barème de notation et manifester leur intérêt" = "ami"
    ∧ detectDocType "bareme de notation et manifester leur interet" = "other"
    ∧ amiScore (pyNorm (s2c "barème de notation et manifester leur intérêt")) = 2
    ∧ amiScore (pyNorm (s2c "bareme de notation et manifester leur interet")) = 1 := by
  refine ⟨by decide, by decide, by decide, by decide⟩

/-- C8 (amended): every marker in the two wordlists is interpreted as a
literal substring — including the entries written in regex syntax,
which Python evaluates to plain strings (with `\x08` for `\b`) and
which are matched literally — and each list's score counts the markers
present in the input under case-insensitive but accent-sensitive
matching (the input is lowercased and its curly apostrophes
normalised; accents are kept). -/
theorem C8_amended_literal_case_insensitive_scores :
    (∀ raw : List Nat,
        amiScore (pyNorm raw)
          = (amiMarkers.filter (fun m => isSubstr m (pyNorm raw))).length
        ∧ tdrScore (pyNorm raw)
          = (tdrMarkers.filter (fun m => isSubstr m (pyNorm raw))).length)
    ∧ (∀ raw : List Nat,
        amiScore (pyNorm (raw.map upperLatinCp)) = amiScore (pyNorm raw)
        ∧ tdrScore (pyNorm (raw.map upperLatinCp)) = tdrScore (pyNorm raw)
        ∧ detectN (raw.map upperLatinCp) = detectN raw) := by
  refine ⟨fun raw => ⟨rfl, rfl⟩, fun raw => ?_⟩
  rw [pyNorm_upper]
  exact ⟨rfl, rfl, detectN_case_insensitive raw⟩

end DocTypeService

namespace UuidM

theorem decVal_append_digit (xs : List Char) (c : Char) :
    decVal (xs ++ [c]) = 10 * decVal xs + (c.toNat - 48) := by
  simp [decVal, List.foldl_append]

theorem digit_toNat : ∀ d < 10, (Char.ofNat (48 + d)).toNat = 48 + d := by decide

theorem decVal_natDecimalGo : ∀ fuel n, n < fuel → decVal (natDecimalGo fuel n) = n := by
  intro fuel
  induction fuel with
  | zero => omega
  | succ f ih =>
    intro n hn
    unfold natDecimalGo
    by_cases h : n < 10
    · simp only [if_pos h, decVal, List.foldl_cons, List.foldl_nil]
      rw [digit_toNat n h]
      omega
    · simp only [if_neg h]
      rw [decVal_append_digit, ih (n / 10) (by omega)]
      rw [digit_toNat (n % 10) (by omega)]
      omega

theorem natDecimal_inj {m n : Nat} (h : natDecimal m = natDecimal n) : m = n := by
  have hm := decVal_natDecimalGo (m + 1) m (by omega)
  have hn := decVal_natDecimalGo (n + 1) n (by omega)
  unfold natDecimal at h
  rw [← hm, ← hn, h]

theorem string_of_data {s₁ s₂ : String} (h : s₁.data = s₂.data) : s₁ = s₂ := by
  cases s₁; cases s₂; exact congrArg String.mk h

theorem pointName_inj_sec (d s₁ s₂ : String) (i : Nat) (hs : s₁ ≠ s₂) :
    pointName d s₁ i ≠ pointName d s₂ i := by
  intro h
  unfold pointName at h
  have h₁ := List.append_cancel_left (List.append_cancel_right h)
  exact hs (string_of_data (List.cons_injective h₁))

theorem pointName_inj_idx (d s : String) (i₁ i₂ : Nat) (hi : i₁ ≠ i₂) :
    pointName d s i₁ ≠ pointName d s i₂ := by
  intro h
  unfold pointName at h
  have h₁ := List.cons_injective (List.append_cancel_left h)
  exact hi (natDecimal_inj h₁)

theorem pointName_inj_doc (d₁ d₂ s : String) (i : Nat) (hd : d₁ ≠ d₂) :
    pointName d₁ s i ≠ pointName d₂ s i := by
  intro h
  unfold pointName at h
  have h₁ := List.append_cancel_right (List.append_cancel_right h)
  exact hd (string_of_data h₁)

end UuidM

/-- C1: the storage point identifier is the version-5 UUID with
namespace `UUID(doc_id)` over the colon-joined triple; the derivation
is pure and deterministic; the Indexer's inline derivation and the
Answer Assembler's `_point_id` agree on every chunk; changing any one
of the three components changes the hashed name string, and on the
sampled domain the derived identifiers are pairwise distinct. -/
theorem C1_point_id_deterministic_shared_derivation :
    (∀ c : ChunkingService.Chunk,
        IndexingService.pointIdOfChunk c = RagService.pointId c.doc_id c.sec c.chunk_index)
    ∧ (∀ (d s : String) (i : Nat), RagService.pointId d s i = UuidM.specPointId d s i)
    ∧ (∀ (d₁ d₂ s₁ s₂ : String) (i₁ i₂ : Nat), d₁ = d₂ → s₁ = s₂ → i₁ = i₂ →
        RagService.pointId d₁ s₁ i₁ = RagService.pointId d₂ s₂ i₂)
    ∧ (∀ (d s₁ s₂ : String) (i : Nat), s₁ ≠ s₂ →
        UuidM.pointName d s₁ i ≠ UuidM.pointName d s₂ i)
    ∧ (∀ (d s : String) (i₁ i₂ : Nat), i₁ ≠ i₂ →
        UuidM.pointName d s i₁ ≠ UuidM.pointName d s i₂)
    ∧ (∀ (d₁ d₂ s : String) (i : Nat), d₁ ≠ d₂ →
        UuidM.pointName d₁ s i ≠ UuidM.pointName d₂ s i)
    ∧ (UuidM.sampleTriples.map fun p => RagService.pointId p.1 p.2.1 p.2.2).Nodup := by
  refine ⟨fun c => rfl, fun d s i => rfl, ?_, UuidM.pointName_inj_sec,
    UuidM.pointName_inj_idx, UuidM.pointName_inj_doc, ?_⟩
  · intro d₁ d₂ s₁ s₂ i₁ i₂ hd hs hi
    rw [hd, hs, hi]
  · have hmap : (UuidM.sampleTriples.map fun p => RagService.pointId p.1 p.2.1 p.2.2) =
        [ some "40dc871b-29c8-5dc1-be36-b0fc82215a8b",
          some "53080cdd-3380-5cf9-baee-9da534b1801c",
          some "1d4a723e-9a35-5f25-b01b-d4ac2c5c063e",
          some "be77e78c-15e6-5bee-b300-6f3c269e969d",
          some "26a4f2d2-7517-5aeb-8865-8e2e147e30f2",
          some "d8bbcf99-356a-5604-885e-f5f579a682ab",
          some "90f42a83-1317-5436-bfe8-75fdedea9e0c",
          some "a1e7886b-c244-598a-844f-60bdda030ced" ] := by decide
    rw [hmap]
    decide

/-- C1 witness: the theorem applied at concrete inputs. -/
theorem C1_point_id_witness :
    RagService.pointId "123e4567-e89b-12d3-a456-426614174000" "mission" 0
      = RagService.pointId "123e4567-e89b-12d3-a456-426614174000" "mission" 0
    ∧ UuidM.pointName "123e4567-e89b-12d3-a456-426614174000" "mission" 0
      ≠ UuidM.pointName "123e4567-e89b-12d3-a456-426614174000" "contexte" 0
    ∧ UuidM.pointName "123e4567-e89b-12d3-a456-426614174000" "mission" 0
      ≠ UuidM.pointName "123e4567-e89b-12d3-a456-426614174000" "mission" 1
    ∧ UuidM.pointName "123e4567-e89b-12d3-a456-426614174000" "mission" 0
      ≠ UuidM.pointName "00000000-0000-0000-0000-000000000000" "mission" 0 :=
  ⟨C1_point_id_deterministic_shared_derivation.2.2.1 _ _ _ _ _ _ rfl rfl rfl,
   C1_point_id_deterministic_shared_derivation.2.2.2.1 _ _ _ _ (by decide),
   C1_point_id_deterministic_shared_derivation.2.2.2.2.1 _ _ _ _ (by decide),
   C1_point_id_deterministic_shared_derivation.2.2.2.2.2.1 _ _ _ _ (by decide)⟩

namespace ChunkingService

theorem sec_beq_false {c : Chunk} {s : String} (h : ¬ c.sec = s) : (c.sec == s) = false := by
  simp [beq_iff_eq, h]

theorem filter_single_pos {c : Chunk} {s : String} (h : c.sec = s) :
    List.filter (fun x => x.sec == s) [c] = [c] := by
  have : (c.sec == s) = true := by simp [beq_iff_eq, h]
  simp [List.filter, this]

theorem filter_single_neg {c : Chunk} {s : String} (h : ¬ c.sec = s) :
    List.filter (fun x => x.sec == s) [c] = [] := by
  simp [List.filter, sec_beq_false h]

theorem ctrGet_ctrSet (cs : List (String × Nat)) (k : String) (v : Nat) (s : String) :
    ctrGet (ctrSet cs k v) s = if k = s then v else ctrGet cs s := by
  induction cs with
  | nil => by_cases h : k = s <;> simp [ctrSet, ctrGet, beq_iff_eq, h]
  | cons p rest ih =>
    obtain ⟨k', v'⟩ := p
    by_cases hk : k' = k
    · subst hk
      by_cases hs : k' = s <;> simp [ctrSet, ctrGet, beq_iff_eq, hs]
    · by_cases hs : k' = s
      · have hks : ¬ k = s := fun hh => hk (hs.trans hh.symm)
        have hsk : ¬ s = k := fun hh => hks hh.symm
        simp [ctrSet, ctrGet, beq_iff_eq, hk, hs, hks, hsk]
      · simp [ctrSet, ctrGet, beq_iff_eq, hk, hs, ih]

theorem addInv_init (docId : String) : AddInv docId ⟨[], []⟩ :=
  ⟨fun _ => rfl, fun _ => rfl, fun c hc => by simp at hc⟩

theorem addInv_step (docId docType : String) (meta : Metadata) (comp : List String)
    (st : AddState) (req : String × List Char) (h : AddInv docId st) :
    AddInv docId (addOne docId docType meta comp st req) := by
  obtain ⟨hctr, hidx, hdoc⟩ := h
  unfold addOne
  by_cases h1 : (normText req.2).isEmpty
  · simpa [h1] using ⟨hctr, hidx, hdoc⟩
  · simp only [h1, Bool.false_eq_true, if_false]
    by_cases h2 : addGuardOk (normText req.2)
    · simp only [h2, Bool.not_true, Bool.false_eq_true, if_false]
      refine ⟨?_, ?_, ?_⟩
      · intro s
        rw [ctrGet_ctrSet, List.filter_append]
        by_cases hs : req.1 = s
        · subst hs
          rw [List.filter_cons_of_pos (by simp)]
          simp [hctr req.1]
        · rw [List.filter_cons_of_neg (by simp [beq_iff_eq, hs])]
          simp [hs, hctr s]
      · intro s
        rw [List.filter_append]
        by_cases hs : req.1 = s
        · subst hs
          rw [List.filter_cons_of_pos (by simp)]
          simp only [List.filter_nil, List.map_append, List.length_append, List.map_cons,
            List.map_nil, List.length_cons, List.length_nil]
          rw [hidx req.1, ← hctr req.1]
          simp [List.range_succ]
        · rw [List.filter_cons_of_neg (by simp [beq_iff_eq, hs])]
          simp [hidx s]
      · intro c hc
        rcases List.mem_append.mp hc with hmem | hmem
        · exact hdoc c hmem
        · simp only [List.mem_singleton] at hmem
          subst hmem
          rfl
    · simpa [h2] using ⟨hctr, hidx, hdoc⟩

theorem addInv_fold (docId docType : String) (meta : Metadata) (comp : List String)
    (reqs : List (String × List Char)) (st : AddState) (h : AddInv docId st) :
    AddInv docId (reqs.foldl (addOne docId docType meta comp) st) := by
  induction reqs generalizing st with
  | nil => exact h
  | cons r rs ih => exact ih _ (addInv_step docId docType meta comp st r h)

/-- per-section index lists being duplicate-free forces all
(section, index) pairs to be distinct. -/
theorem pairs_nodup_of_sections_range (cs : List Chunk)
    (h : ∀ s : String, ((cs.filter (fun c => c.sec == s)).map (·.chunk_index)).Nodup) :
    (cs.map (fun c => (c.sec, c.chunk_index))).Nodup := by
  induction cs with
  | nil => simp
  | cons c rest ih =>
    simp only [List.map_cons, List.nodup_cons]
    constructor
    · intro hmem
      rcases List.mem_map.mp hmem with ⟨c', hc', hpair⟩
      have hsec : c'.sec = c.sec := congrArg Prod.fst hpair
      have hix : c'.chunk_index = c.chunk_index := congrArg Prod.snd hpair
      have hfil := h c.sec
      rw [List.filter_cons_of_pos (by simp)] at hfil
      simp only [List.map_cons, List.nodup_cons] at hfil
      have hcmem : c' ∈ rest.filter (fun x => x.sec == c.sec) :=
        List.mem_filter.mpr ⟨hc', by simp [beq_iff_eq, hsec]⟩
      exact hfil.1 (hix ▸ List.mem_map.mpr ⟨c', hcmem, rfl⟩)
    · refine ih fun s => ?_
      have hfil := h s
      by_cases hs : c.sec = s
      · rw [List.filter_cons_of_pos (by simp [beq_iff_eq, hs])] at hfil
        simp only [List.map_cons, List.nodup_cons] at hfil
        exact hfil.2
      · rwa [List.filter_cons_of_neg (by simp [sec_beq_false hs])] at hfil

/-- C2: for every accepted structured document, the chunk-index values
per section form the contiguous sequence 0, 1, 2, … in emission order,
and the (doc_id, section, chunk_index) triples are pairwise distinct
across the returned chunk list. -/
theorem C2_chunk_indices_contiguous_triples_unique
    (d : StructuredDoc) (target maxC ov : Nat) (chunks : List Chunk)
    (h : buildChunksFromStructured d target maxC ov = .ok chunks) :
    (∀ s : String, (chunks.filter (fun c => c.sec == s)).map (·.chunk_index)
        = List.range (chunks.filter (fun c => c.sec == s)).length)
    ∧ (chunks.map (fun c => (c.doc_id, c.sec, c.chunk_index))).Nodup := by
  unfold buildChunksFromStructured at h
  by_cases hid : (⟨pyStrip d.doc_id.data⟩ : String).isEmpty
  · simp [hid] at h
  · simp only [hid, Bool.false_eq_true, if_false, Except.ok.injEq] at h
    subst h
    obtain ⟨hctr, hidx, hdoc⟩ := addInv_fold (⟨pyStrip d.doc_id.data⟩ : String)
      (docTypeOf d) d.metadata (competencesOf d) (addRequests d target maxC ov)
      ⟨[], []⟩ (addInv_init _)
    refine ⟨hidx, ?_⟩
    have hpairs := pairs_nodup_of_sections_range _ (fun s => by
      rw [hidx s]; exact List.nodup_range _)
    refine List.Nodup.of_map (f := fun p : String × String × Nat => (p.2.1, p.2.2)) ?_
    rw [List.map_map]
    exact hpairs

end ChunkingService

namespace ChunkingService

theorem length_dropWhile_le (p : Char → Bool) (l : List Char) :
    (l.dropWhile p).length ≤ l.length := by
  induction l with
  | nil => simp
  | cons c rest ih =>
    rw [List.dropWhile_cons]
    split
    · exact le_trans ih (by simp)
    · simp

theorem pyRstrip_le (l : List Char) : (pyRstrip l).length ≤ l.length := by
  unfold pyRstrip
  simpa using length_dropWhile_le pyWsChar l.reverse

theorem pyStrip_le (l : List Char) : (pyStrip l).length ≤ l.length := by
  unfold pyStrip pyLstrip
  exact le_trans (pyRstrip_le _) (length_dropWhile_le pyWsChar l)

theorem nlFlush_le (k : Nat) : (nlFlush k).length ≤ k := by
  unfold nlFlush
  split <;> simp <;> omega

theorem collapseNlGo_le (l : List Char) : ∀ k, (collapseNlGo k l).length ≤ k + l.length := by
  induction l with
  | nil => intro k; simpa using nlFlush_le k
  | cons c rest ih =>
    intro k
    unfold collapseNlGo
    split
    · have := ih (k + 1)
      simpa [Nat.add_comm, Nat.add_left_comm] using this
    · simp only [List.length_append, List.length_cons]
      have h1 := nlFlush_le k
      have h2 := ih 0
      simp only [List.length_cons, Nat.zero_add] at h2 ⊢
      omega

theorem spFlush_rev_le (p : List Char) : (spFlush p.reverse).length ≤ p.length := by
  unfold spFlush
  split
  · next h =>
    simp only [List.length_reverse] at h
    simp only [List.length_cons, List.length_nil]
    omega
  · simp

theorem collapseSpGo_le (l : List Char) : ∀ p, (collapseSpGo p l).length ≤ p.length + l.length := by
  induction l with
  | nil =>
    intro p
    unfold collapseSpGo
    simpa using spFlush_rev_le p
  | cons c rest ih =>
    intro p
    unfold collapseSpGo
    split
    · have := ih (c :: p)
      simp only [List.length_cons] at this ⊢
      omega
    · have h2 := ih []
      simp only [List.length_nil, Nat.zero_add] at h2
      have h1 := spFlush_rev_le p
      simp only [List.length_append, List.length_cons]
      omega

theorem normText_le (l : List Char) : (normText l).length ≤ l.length := by
  unfold normText collapseNl collapseSp
  refine le_trans (pyStrip_le _) (le_trans (collapseSpGo_le _ []) ?_)
  simp only [List.length_nil, Nat.zero_add]
  refine le_trans (collapseNlGo_le _ 0) ?_
  simpa using List.length_filter_le _ l

theorem flushWin_bound (maxC : Nat) (cur chunks : List (List Char))
    (h : ∀ w ∈ chunks, w.length ≤ maxC) :
    ∀ w ∈ flushWin maxC cur chunks, w.length ≤ maxC := by
  unfold flushWin
  split
  · exact h
  · split
    · exact h
    · split
      · intro w hw
        rcases List.mem_append.mp hw with hm | hm
        · exact h w hm
        · simp only [List.mem_singleton] at hm
          subst hm
          refine le_trans (pyRstrip_le _) ?_
          simp [List.length_take]
      · intro w hw
        rcases List.mem_append.mp hw with hm | hm
        · exact h w hm
        · simp only [List.mem_singleton] at hm
          subst hm
          omega

theorem hardSliceGo_bound (u : List Char) (maxC ov : Nat) :
    ∀ fuel start, ∀ w ∈ hardSliceGo u maxC ov fuel start, w.length ≤ maxC := by
  intro fuel
  induction fuel with
  | zero => intro start w hw; simp [hardSliceGo] at hw
  | succ f ih =>
    intro start w hw
    unfold hardSliceGo at hw
    split at hw
    · have hpiece : (normText ((u.drop start).take (min (start + maxC) u.length - start))).length
          ≤ maxC := by
        refine le_trans (normText_le _) ?_
        simp only [List.length_take]
        omega
      split at hw
      · simp only [List.mem_singleton] at hw
        subst hw
        exact hpiece
      · rcases List.mem_cons.mp hw with hm | hm
        · subst hm; exact hpiece
        · exact ih _ w hm
    · simp at hw

theorem buildWindowsGo_bound (target maxC ov : Nat) :
    ∀ (units chunks cur : List (List Char)) (curLen : Nat),
      (∀ w ∈ chunks, w.length ≤ maxC) →
      ∀ w ∈ buildWindowsGo target maxC ov units chunks cur curLen, w.length ≤ maxC := by
  intro units
  induction units with
  | nil =>
    intro chunks cur curLen h w hw
    exact flushWin_bound maxC cur chunks h w hw
  | cons u0 us ih =>
    intro chunks cur curLen h w hw
    unfold buildWindowsGo at hw
    split at hw
    · exact ih chunks cur curLen h w hw
    · split at hw
      · refine ih _ [] 0 ?_ w hw
        intro w' hw'
        rcases List.mem_append.mp hw' with hm | hm
        · exact flushWin_bound maxC cur chunks h w' hm
        · exact hardSliceGo_bound _ maxC ov _ 0 w' hm
      · split at hw
        · exact ih chunks _ _ h w hw
        · split at hw
          · split at hw
            · exact ih _ [pyStrip u0] _ (flushWin_bound maxC cur chunks h) w hw
            · exact ih _ [_, pyStrip u0] _ (flushWin_bound maxC cur chunks h) w hw
          · exact ih _ [pyStrip u0] _ (flushWin_bound maxC cur chunks h) w hw

/-- every narrative window emitted by `_build_windows` is capped at
`max_chars`. -/
theorem buildWindows_bound (text : List Char) (target maxC ov : Nat) :
    ∀ w ∈ buildWindows text target maxC ov, w.length ≤ maxC := by
  unfold buildWindows
  split
  · intro w hw; simp at hw
  · exact buildWindowsGo_bound target maxC ov _ [] [] 0 (by intro w hw; simp at hw)

end ChunkingService

namespace ChunkingService

/-- C2 witness: the theorem applied to a concrete structured document
(narrative windows, a table chunk, a task list and competences; the
section "contexte" is sampled for the contiguity conjunct). -/
theorem except_ok_of_toOption {α β : Type} (e : Except α β) (b : β)
    (h : e.toOption = some b) : e = .ok b := by
  cases e with
  | error a => simp [Except.toOption] at h
  | ok v => simp only [Except.toOption, Option.some.injEq] at h; rw [h]

theorem C2_chunk_indices_witness :
    ((chunkFixtureChunks.filter (fun c => c.sec == "contexte")).map (·.chunk_index)
        = List.range (chunkFixtureChunks.filter (fun c => c.sec == "contexte")).length)
    ∧ (chunkFixtureChunks.map (fun c => (c.doc_id, c.sec, c.chunk_index))).Nodup :=
  ⟨(C2_chunk_indices_contiguous_triples_unique chunkFixtureDoc 60 80 10
      chunkFixtureChunks (except_ok_of_toOption _ _ (by decide))).1 "contexte",
   (C2_chunk_indices_contiguous_triples_unique chunkFixtureDoc 60 80 10
      chunkFixtureChunks (except_ok_of_toOption _ _ (by decide))).2⟩

theorem sectionsGet_mem (secs : List (String × String)) (k v : String)
    (h : sectionsGet secs k = some v) : ∃ k', (k', v) ∈ secs := by
  unfold sectionsGet at h
  rcases Option.map_eq_some'.mp h with ⟨p, hfind, hv⟩
  exact ⟨p.1, by
    have hm := List.mem_of_find?_eq_some hfind
    rwa [show (p.1, v) = p from by rw [← hv]] ⟩

theorem chunks_text_bound (docId docType : String) (meta : Metadata)
    (comp : List String) (maxC : Nat) :
    ∀ (reqs : List (String × List Char)) (st : AddState),
      (∀ c ∈ st.chunks, c.text.length ≤ maxC) →
      (∀ r ∈ reqs, (normText r.2).length ≤ maxC) →
      ∀ c ∈ (reqs.foldl (addOne docId docType meta comp) st).chunks,
        c.text.length ≤ maxC := by
  intro reqs
  induction reqs with
  | nil => intro st hst _ c hc; exact hst c hc
  | cons r rs ih =>
    intro st hst hreq c hc
    refine ih _ ?_ (fun r' hr' => hreq r' (List.mem_cons_of_mem r hr')) c hc
    intro c' hc'
    unfold addOne at hc'
    split at hc'
    · exact hst c' hc'
    · split at hc'
      · exact hst c' hc'
      · rcases List.mem_append.mp hc' with hm | hm
        · exact hst c' hm
        · simp only [List.mem_singleton] at hm
          subst hm
          exact hreq r (List.mem_cons_self r rs)

theorem sectionRequests_bound (d : StructuredDoc) (target maxC ov : Nat)
    (htab : ∀ p ∈ d.sections, extractMdTables (normText p.2.data) = []) :
    ∀ r ∈ sectionRequests d target maxC ov, (normText r.2).length ≤ maxC := by
  intro r hr
  unfold sectionRequests at hr
  rcases List.mem_flatten.mp hr with ⟨l, hl, hrl⟩
  rcases List.mem_map.mp hl with ⟨sec, _, rfl⟩
  split at hrl
  · simp at hrl
  · rcases hfind : sectionsGet d.sections sec with _ | rawS
    · rw [hfind] at hrl; simp at hrl
    · rw [hfind] at hrl
      dsimp only at hrl
      unfold perSectionRequests at hrl
      split at hrl
      · simp at hrl
      · obtain ⟨k', hmem⟩ := sectionsGet_mem d.sections sec rawS hfind
        have htables : extractMdTables (normText rawS.data) = [] := htab (k', rawS) hmem
        rw [htables] at hrl
        simp only [List.take_nil, List.map_nil, List.filter_nil,
          List.append_nil] at hrl
        rcases List.mem_map.mp hrl with ⟨w, hw, rfl⟩
        exact le_trans (normText_le w)
          (buildWindows_bound _ target maxC ov w hw)

/-- C6 (amended): every flushed narrative window is hard-capped at
`max_chars`, so for structured documents that contribute no table,
task, competences or AMI-field chunks every chunk text is bounded by
`max_chars`; table chunks (and task/competences/AMI-field chunks) are
emitted without a length cap and can exceed it. -/
theorem C6_amended_narrative_windows_capped :
    (∀ (text : List Char) (target maxC ov : Nat),
        ∀ w ∈ buildWindows text target maxC ov, w.length ≤ maxC)
    ∧ (∀ (d : StructuredDoc) (target maxC ov : Nat) (chunks : List Chunk),
        buildChunksFromStructured d target maxC ov = .ok chunks →
        (∀ p ∈ d.sections, extractMdTables (normText p.2.data) = []) →
        tachesOf d = [] →
        competencesOf d = [] →
        d.ami_fields? = none →
        ∀ c ∈ chunks, c.text.length ≤ maxC) := by
  refine ⟨fun text target maxC ov => buildWindows_bound text target maxC ov, ?_⟩
  intro d target maxC ov chunks hok htab htac hcomp hami c hc
  unfold buildChunksFromStructured at hok
  split at hok
  · exact absurd hok (by simp)
  · simp only [Except.ok.injEq] at hok
    subst hok
    refine chunks_text_bound _ _ _ _ maxC (addRequests d target maxC ov) ⟨[], []⟩
      (by intro c' hc'; simp at hc') ?_ c hc
    intro r hr
    unfold addRequests at hr
    have hamil : amiRequests d target maxC ov = [] := by
      unfold amiRequests
      rw [hami]
    have htacl : tacheRequests d = [] := by
      unfold tacheRequests
      rw [htac]
      simp
    have hcompl : compRequests d = [] := by
      unfold compRequests
      rw [hcomp]
      simp
    rw [hamil, htacl, hcompl, List.append_nil, List.append_nil, List.append_nil] at hr
    exact sectionRequests_bound d target maxC ov htab r hr

/-- C6 counterexample: a markdown table inside a section becomes a
`table:`-namespaced chunk whose text (134 characters) exceeds
`max_chars = 60`, refuting the claim that every chunk text is bounded
by `max_chars`. -/
theorem C6_counterexample_table_chunk_exceeds_max :
    ((buildChunksFromStructured tableOverflowDoc 50 60 0).toOption.getD []).any
      (fun c => c.sec == "table:contexte" && decide (60 < c.text.length)) = true := by
  decide

/-- C6 witness: the amended theorem applied at a table-free document
(the first produced chunk) and at a concrete window list. -/
theorem C6_amended_witness :
    ((buildWindows "Phrase un. Phrase deux. Phrase trois.".data 20 30 5).getD 0 []).length ≤ 30
    ∧ (plainWindowChunks.getD 0 ⟨"", "", "", 0, "", [], []⟩).text.length ≤ 50 :=
  ⟨C6_amended_narrative_windows_capped.1 "Phrase un. Phrase deux. Phrase trois.".data
     20 30 5 _ (by decide),
   C6_amended_narrative_windows_capped.2 plainWindowDoc 40 50 5 plainWindowChunks
     (except_ok_of_toOption _ _ (by decide)) (by decide) (by decide) (by decide)
     (by decide) _ (by decide)⟩

end ChunkingService

namespace SearchService

theorem insertDescBy_perm {α : Type} (key : α → ℚ) (x : α) (l : List α) :
    (insertDescBy key x l).Perm (x :: l) := by
  induction l with
  | nil => exact List.Perm.refl _
  | cons y ys ih =>
    unfold insertDescBy
    split
    · exact List.Perm.refl _
    · exact ((ih.cons y).trans (List.Perm.swap x y ys))

theorem sortDescBy_perm {α : Type} (key : α → ℚ) (l : List α) :
    (sortDescBy key l).Perm l := by
  induction l with
  | nil => exact List.Perm.refl _
  | cons x xs ih =>
    exact (insertDescBy_perm key x (sortDescBy key xs)).trans (ih.cons x)

theorem mem_sortDescBy {α : Type} {key : α → ℚ} {l : List α} {a : α}
    (h : a ∈ sortDescBy key l) : a ∈ l :=
  (sortDescBy_perm key l).mem_iff.mp h

theorem mem_sortDescBy_of_mem {α : Type} {key : α → ℚ} {l : List α} {a : α}
    (h : a ∈ l) : a ∈ sortDescBy key l :=
  (sortDescBy_perm key l).mem_iff.mpr h

theorem insertDescBy_sorted {α : Type} (key : α → ℚ) (x : α) (l : List α)
    (h : SortedDescBy key l) : SortedDescBy key (insertDescBy key x l) := by
  induction l with
  | nil => exact List.pairwise_singleton _ x
  | cons y ys ih =>
    unfold insertDescBy
    rcases List.pairwise_cons.mp h with ⟨hy, hys⟩
    split
    · next hxy =>
      refine List.pairwise_cons.mpr ⟨?_, h⟩
      intro b hb
      rcases List.mem_cons.mp hb with rfl | hb
      · exact hxy
      · exact le_trans (hy b hb) hxy
    · next hxy =>
      refine List.pairwise_cons.mpr ⟨?_, ih hys⟩
      intro b hb
      rcases List.mem_cons.mp ((insertDescBy_perm key x ys).mem_iff.mp hb) with rfl | hb
      · exact le_of_not_le hxy
      · exact hy b hb

theorem sortDescBy_sorted {α : Type} (key : α → ℚ) (l : List α) :
    SortedDescBy key (sortDescBy key l) := by
  induction l with
  | nil => exact List.Pairwise.nil
  | cons x xs ih => exact insertDescBy_sorted key x _ ih

theorem sortedDescBy_take {α : Type} (key : α → ℚ) (l : List α) (n : Nat)
    (h : SortedDescBy key l) : SortedDescBy key (l.take n) :=
  h.sublist (List.take_sublist n l)

end SearchService

namespace SearchService

theorem updateGroup_doc_id (query : String) (it : Candidate) (g : Grouped) :
    (updateGroup query it g).doc_id = g.doc_id := rfl

theorem updateGroup_score (query : String) (it : Candidate) (g : Grouped) :
    (updateGroup query it g).score
      = if g.score < it.score_final then it.score_final else g.score := rfl

theorem groupInv_step (query : String) (done : List Candidate)
    (groups : List Grouped) (it : Candidate) (h : GroupInv done groups) :
    GroupInv (done ++ [it]) (upsertGroup query groups it) := by
  obtain ⟨hne, hwit, hdom, hcov⟩ := h
  unfold upsertGroup
  split
  · next hemp =>
    refine ⟨hne, ?_, ?_, ?_⟩
    · intro g hg
      obtain ⟨w, hw, hmore⟩ := hwit g hg
      exact ⟨w, List.mem_append_left _ hw, hmore⟩
    · intro g hg it' hit' hid
      rcases List.mem_append.mp hit' with hm | hm
      · exact hdom g hg it' hm hid
      · simp only [List.mem_singleton] at hm
        subst hm
        exact absurd (hid ▸ hne g hg) (by simp [hemp])
    · intro it' hit' hne'
      rcases List.mem_append.mp hit' with hm | hm
      · exact hcov it' hm hne'
      · simp only [List.mem_singleton] at hm
        subst hm
        exact absurd hemp hne'
  · next hemp =>
    split
    · next hfound =>
      refine ⟨?_, ?_, ?_, ?_⟩
      · intro g hg
        rcases List.mem_map.mp hg with ⟨g₀, hg₀, rfl⟩
        by_cases hmatch : (g₀.doc_id == it.doc_id) = true
        · rw [if_pos hmatch, updateGroup_doc_id]
          exact hne g₀ hg₀
        · rw [if_neg hmatch]
          exact hne g₀ hg₀
      · intro g hg
        rcases List.mem_map.mp hg with ⟨g₀, hg₀, rfl⟩
        by_cases hmatch : (g₀.doc_id == it.doc_id) = true
        · rw [if_pos hmatch, updateGroup_doc_id, updateGroup_score]
          split
          · exact ⟨it, List.mem_append_right _ (List.mem_singleton.mpr rfl),
              (beq_iff_eq.mp hmatch).symm, rfl⟩
          · obtain ⟨w, hw, hid, hsc⟩ := hwit g₀ hg₀
            exact ⟨w, List.mem_append_left _ hw, hid, hsc⟩
        · rw [if_neg hmatch]
          obtain ⟨w, hw, hid, hsc⟩ := hwit g₀ hg₀
          exact ⟨w, List.mem_append_left _ hw, hid, hsc⟩
      · intro g hg it' hit' hid
        rcases List.mem_map.mp hg with ⟨g₀, hg₀, rfl⟩
        by_cases hmatch : (g₀.doc_id == it.doc_id) = true
        · rw [if_pos hmatch] at hid ⊢
          rw [updateGroup_doc_id] at hid
          rw [updateGroup_score]
          rcases List.mem_append.mp hit' with hm | hm
          · have hd := hdom g₀ hg₀ it' hm hid
            split
            · next hlt => exact le_of_lt (lt_of_le_of_lt hd hlt)
            · exact hd
          · simp only [List.mem_singleton] at hm
            subst hm
            split
            · exact le_refl _
            · next hnlt => exact le_of_not_lt hnlt
        · rw [if_neg hmatch] at hid ⊢
          rcases List.mem_append.mp hit' with hm | hm
          · exact hdom g₀ hg₀ it' hm hid
          · simp only [List.mem_singleton] at hm
            subst hm
            exact absurd (beq_iff_eq.mpr hid.symm) hmatch
      · intro it' hit' hne'
        rcases List.mem_append.mp hit' with hm | hm
        · obtain ⟨g, hg, hgid⟩ := hcov it' hm hne'
          by_cases hmatch : (g.doc_id == it.doc_id) = true
          · refine ⟨updateGroup query it g,
              List.mem_map.mpr ⟨g, hg, by rw [if_pos hmatch]⟩, ?_⟩
            rw [updateGroup_doc_id]
            exact hgid
          · exact ⟨g, List.mem_map.mpr ⟨g, hg, by rw [if_neg hmatch]⟩, hgid⟩
        · simp only [List.mem_singleton] at hm
          subst hm
          obtain ⟨g, hfind⟩ := Option.isSome_iff_exists.mp hfound
          have hgmem := List.mem_of_find?_eq_some hfind
          have hgmatch := List.find?_some hfind
          refine ⟨updateGroup query it' g,
            List.mem_map.mpr ⟨g, hgmem, by rw [if_pos hgmatch]⟩, ?_⟩
          rw [updateGroup_doc_id]
          exact beq_iff_eq.mp hgmatch
    · next hfound =>
      have hnotin : ∀ g ∈ groups, ¬(g.doc_id == it.doc_id) = true := by
        intro g hg hcontra
        exact hfound (List.find?_isSome.mpr ⟨g, hg, hcontra⟩)
      refine ⟨?_, ?_, ?_, ?_⟩
      · intro g hg
        rcases List.mem_append.mp hg with hm | hm
        · exact hne g hm
        · simp only [List.mem_singleton] at hm
          subst hm
          rw [updateGroup_doc_id]
          exact hemp
      · intro g hg
        rcases List.mem_append.mp hg with hm | hm
        · obtain ⟨w, hw, hmore⟩ := hwit g hm
          exact ⟨w, List.mem_append_left _ hw, hmore⟩
        · simp only [List.mem_singleton] at hm
          subst hm
          refine ⟨it, List.mem_append_right _ (List.mem_singleton.mpr rfl), rfl, ?_⟩
          rw [updateGroup_score]
          simp
      · intro g hg it' hit' hid
        rcases List.mem_append.mp hg with hm | hm
        · rcases List.mem_append.mp hit' with hm' | hm'
          · exact hdom g hm it' hm' hid
          · simp only [List.mem_singleton] at hm'
            subst hm'
            exact absurd (beq_iff_eq.mpr hid.symm) (hnotin g hm)
        · simp only [List.mem_singleton] at hm
          subst hm
          have hid' : it'.doc_id = it.doc_id := hid
          rcases List.mem_append.mp hit' with hm' | hm'
          · obtain ⟨g', hg', hgid⟩ := hcov it' hm' (by rw [hid']; exact hemp)
            exact absurd (beq_iff_eq.mpr (hgid.trans hid')) (hnotin g' hg')
          · simp only [List.mem_singleton] at hm'
            subst hm'
            rw [updateGroup_score]
            split
            · exact le_refl _
            · exact le_refl _
      · intro it' hit' hne'
        rcases List.mem_append.mp hit' with hm | hm
        · obtain ⟨g, hg, hgid⟩ := hcov it' hm hne'
          exact ⟨g, List.mem_append_left _ hg, hgid⟩
        · simp only [List.mem_singleton] at hm
          subst hm
          refine ⟨_, List.mem_append_right _ (List.mem_singleton.mpr rfl), rfl⟩

end SearchService

namespace SearchService

theorem groupInv_fold (query : String) :
    ∀ (items done : List Candidate) (groups : List Grouped),
      GroupInv done groups →
      GroupInv (done ++ items) (items.foldl (upsertGroup query) groups) := by
  intro items
  induction items with
  | nil => intro done groups h; simpa using h
  | cons it rest ih =>
    intro done groups h
    have := ih (done ++ [it]) (upsertGroup query groups it) (groupInv_step query done groups it h)
    simpa [List.append_assoc] using this

theorem groupInv_of_items (query : String) (items : List Candidate) :
    GroupInv items (items.foldl (upsertGroup query) []) := by
  have := groupInv_fold query items [] []
    ⟨fun g hg => by simp at hg, fun g hg => by simp at hg,
     fun g hg => by simp at hg, fun it' hit' => by simp at hit'⟩
  simpa using this

/-- C5: in the primary search path, each returned grouped document's
score is the maximum fused score among that document's surviving
chunks, its snippets are sorted by score descending and bounded by the
per-document snippet limit, the grouped documents are sorted by score
descending, and at most `top_k` are returned; two same-document chunks
with fused scores 0.9 and 0.4 yield one group scored 0.9 with snippet
scores [0.9, 0.4]. -/
theorem C5_grouping_max_score_sorted_bounded :
    (∀ (candidates : List Candidate) (query : String) (topK maxPerDoc perDocSnippets : Nat),
      (searchPrimaryTail candidates query topK maxPerDoc perDocSnippets).length ≤ topK
      ∧ SortedDescBy (·.score) (searchPrimaryTail candidates query topK maxPerDoc perDocSnippets)
      ∧ (∀ g ∈ searchPrimaryTail candidates query topK maxPerDoc perDocSnippets,
          SortedDescBy (·.score) g.snippets
          ∧ g.snippets.length ≤ perDocSnippets
          ∧ (∃ c ∈ survivingChunks candidates maxPerDoc,
              c.doc_id = g.doc_id ∧ c.score_final = g.score)
          ∧ (∀ c ∈ survivingChunks candidates maxPerDoc,
              c.doc_id = g.doc_id → c.score_final ≤ g.score)))
    ∧ (searchPrimaryTail [scenarioCandA, scenarioCandB] "requete" 8 3 3).length = 1
    ∧ ((searchPrimaryTail [scenarioCandA, scenarioCandB] "requete" 8 3 3).getD 0
        groupedDummy).score = mkRat 9 10
    ∧ (((searchPrimaryTail [scenarioCandA, scenarioCandB] "requete" 8 3 3).getD 0
        groupedDummy).snippets.map (·.score)) = [mkRat 9 10, mkRat 4 10] := by
  refine ⟨?_, by decide, by decide, by decide⟩
  intro candidates query topK maxPerDoc perDocSnippets
  refine ⟨?_, ?_, ?_⟩
  · unfold searchPrimaryTail
    exact List.length_take_le topK _
  · exact sortedDescBy_take _ _ _ (sortDescBy_sorted _ _)
  · intro g hg
    have hg₁ : g ∈ sortDescBy (·.score)
        (((survivingChunks candidates maxPerDoc).foldl (upsertGroup query) []).map
          (fun g => { g with
            snippets := (sortDescBy (·.score) g.snippets).take perDocSnippets })) :=
      List.mem_of_mem_take hg
    have hg₂ := mem_sortDescBy hg₁
    rcases List.mem_map.mp hg₂ with ⟨g₀, hg₀, rfl⟩
    obtain ⟨_, hwit, hdom, _⟩ := groupInv_of_items query (survivingChunks candidates maxPerDoc)
    refine ⟨sortedDescBy_take _ _ _ (sortDescBy_sorted _ _), by simp, ?_, ?_⟩
    · obtain ⟨w, hw, hid, hsc⟩ := hwit g₀ hg₀
      exact ⟨w, hw, hid, hsc⟩
    · intro c hc hid
      exact hdom g₀ hg₀ c hc hid

end SearchService

namespace SearchService

open ChunkingService (pyStrip)

/-- C5 witness: the theorem applied to the two-chunk scenario: the
single group's snippets are sorted descending and the 0.4-scored chunk
is bounded by the group score. -/
theorem C5_grouping_witness :
    SortedDescBy (·.score)
      (((searchPrimaryTail [scenarioCandA, scenarioCandB] "requete" 8 3 3).getD 0
        groupedDummy).snippets)
    ∧ scenarioCandB.score_final ≤
      ((searchPrimaryTail [scenarioCandA, scenarioCandB] "requete" 8 3 3).getD 0
        groupedDummy).score := by
  have h := (C5_grouping_max_score_sorted_bounded.1
      [scenarioCandA, scenarioCandB] "requete" 8 3 3).2.2
    ((searchPrimaryTail [scenarioCandA, scenarioCandB] "requete" 8 3 3).getD 0 groupedDummy)
    (by decide)
  exact ⟨h.1, h.2.2.2 scenarioCandB (by decide) (by decide)⟩

/-- grouped results are always well-formed: documents sorted by score
descending, each group's snippets sorted descending and capped at the
per-document snippet limit. -/
theorem groupResultsByDoc_wellformed (items : List Candidate) (query : String)
    (perDocSnippets : Nat) :
    SortedDescBy (·.score) (groupResultsByDoc items query perDocSnippets)
    ∧ ∀ g ∈ groupResultsByDoc items query perDocSnippets,
        SortedDescBy (·.score) g.snippets ∧ g.snippets.length ≤ perDocSnippets := by
  refine ⟨sortDescBy_sorted _ _, ?_⟩
  intro g hg
  have hg₂ := mem_sortDescBy hg
  rcases List.mem_map.mp hg₂ with ⟨g₀, _, rfl⟩
  exact ⟨sortedDescBy_take _ _ _ (sortDescBy_sorted _ _), by simp⟩

/-- the non-blank-query success helper shared by the search-layer
theorems. -/
theorem search_ok_of_nonblank (env : SearchEnv) (cfg : SearchCfg) (query : String)
    (topK : Nat) (filters : List (String × String))
    (hq : ¬(pyStrip query.data).isEmpty = true) :
    ∃ p, search env cfg query topK filters = .ok p := by
  unfold search
  rw [if_neg hq]
  cases hp : env.primary with
  | error e => exact ⟨_, rfl⟩
  | ok points =>
    dsimp only
    by_cases hpts : points.isEmpty = true
    · rw [if_pos hpts]; exact ⟨_, rfl⟩
    · rw [if_neg hpts]; exact ⟨_, rfl⟩

/-- C4 (amended): for every query with non-whitespace content, `search`
returns a payload and never an error; when the primary vector path
fails, the payload comes from the lexical fallback with mode
"fallback_lexical", the triggering error in `qdrant_error`, and
well-formed grouped results (documents sorted by score descending, each
group's snippets sorted descending and capped at the per-document
limit). Blank queries raise instead (see the counterexample). -/
theorem C4_amended_nonblank_query_no_exception :
    ∀ (env : SearchEnv) (cfg : SearchCfg) (query : String) (topK : Nat)
      (filters : List (String × String)),
      ¬(pyStrip query.data).isEmpty = true →
      (∃ p, search env cfg query topK filters = .ok p)
      ∧ (∀ e, env.primary = .error e →
          ∃ p, search env cfg query topK filters = .ok p
            ∧ p.mode = "fallback_lexical"
            ∧ p.qdrant_error = some e
            ∧ SortedDescBy (·.score) p.results
            ∧ ∀ g ∈ p.results,
                SortedDescBy (·.score) g.snippets
                ∧ g.snippets.length ≤ cfg.perDocSnippets) := by
  intro env cfg query topK filters hq
  constructor
  · exact search_ok_of_nonblank env cfg query topK filters hq
  · intro e he
    refine ⟨fallbackSearch env cfg ⟨pyStrip query.data⟩ topK filters e, ?_, rfl, rfl, ?_, ?_⟩
    · unfold search
      rw [if_neg hq, he]
    · exact (groupResultsByDoc_wellformed _ _ _).1
    · exact (groupResultsByDoc_wellformed _ _ _).2

/-- C4 witness: the amended theorem applied at a concrete non-blank
query against an environment whose primary path is down. -/
theorem C4_amended_witness :
    ∃ p, search envPrimaryDown cfgDefault "mission texte" 5 [] = .ok p
      ∧ p.mode = "fallback_lexical"
      ∧ p.qdrant_error = some "qdrant connection refused" := by
  obtain ⟨-, h2⟩ := C4_amended_nonblank_query_no_exception envPrimaryDown cfgDefault
    "mission texte" 5 [] (by decide)
  obtain ⟨p, hp, hm, hqe, -, -⟩ := h2 "qdrant connection refused" rfl
  exact ⟨p, hp, hm, hqe⟩

/-- C4 counterexample: the empty query (and any whitespace-only query)
makes `search` raise `ValueError("query is required")`, so the claim\x27s
"for every query ... never propagates an exception" fails. -/
theorem C4_counterexample_empty_query_raises :
    search envPrimaryDown cfgDefault "" 5 [] = .error "query is required"
    ∧ search envPrimaryDown cfgDefault "   " 5 [] = .error "query is required" :=
  ⟨rfl, rfl⟩

end SearchService

namespace RagService

open SearchService (Grouped)

theorem truncChunk_le (m : Nat) (t : List Char) (h : 0 < m) :
    (truncChunk m t).length ≤ m := by
  unfold truncChunk
  split
  · simp [List.length_take]
  · rename_i hg
    simp only [ne_eq, Bool.and_eq_true, decide_eq_true_eq, not_and, Bool.not_eq_true,
      decide_eq_false_iff_not, not_lt] at hg
    rcases Nat.eq_zero_or_pos m with hm | hm
    · omega
    · have := hg (by simpa using Nat.pos_iff_ne_zero.mp hm)
      omega

theorem emit5_inv (cfg : RagCfg) (pl : (String × String × Nat) → Option RagPayload)
    (items : List BaseItem) (P : List Char → Prop) :
    ∀ (keys : List (String × String × Nat))
      (st : List (List Char) × List RagSource × Nat),
      (∀ k ∈ keys, P (step5Block cfg pl items k)) →
      EmitInv cfg P st → EmitInv cfg P (emit5 cfg pl items keys st) := by
  intro keys
  induction keys with
  | nil => intro st _ h; exact h
  | cons k rest ih =>
    intro st hP h
    obtain ⟨parts, srcs, total⟩ := st
    obtain ⟨hsum, hle, hblocks⟩ := h
    unfold emit5
    split
    · exact ih _ (fun k' hk' => hP k' (List.mem_cons_of_mem _ hk')) ⟨hsum, hle, hblocks⟩
    · split
      · exact ⟨hsum, hle, hblocks⟩
      · rename_i hskip hbud
        apply ih _ (fun k' hk' => hP k' (List.mem_cons_of_mem _ hk'))
        refine ⟨?_, ?_, ?_⟩
        · simpa using hsum
        · simp only [not_lt] at hbud
          exact hbud
        · intro p hp
          rcases List.mem_append.mp hp with h1 | h2
          · exact hblocks p h1
          · rcases List.mem_singleton.mp h2 with rfl
            exact hP k (List.mem_cons_self _ _)

theorem emit6_inv (cfg : RagCfg) (P : List Char → Prop) :
    ∀ (items : List BaseItem) (st : List (List Char) × List RagSource × Nat),
      (∀ it ∈ items, ¬it.chunk_index.isSome = true → P (step6Block cfg it)) →
      EmitInv cfg P st → EmitInv cfg P (emit6 cfg items st) := by
  intro items
  induction items with
  | nil => intro st _ h; exact h
  | cons it rest ih =>
    intro st hP h
    obtain ⟨parts, srcs, total⟩ := st
    obtain ⟨hsum, hle, hblocks⟩ := h
    unfold emit6
    split
    · exact ih _ (fun it' hi' hn' => hP it' (List.mem_cons_of_mem _ hi') hn')
        ⟨hsum, hle, hblocks⟩
    · split
      · exact ih _ (fun it' hi' hn' => hP it' (List.mem_cons_of_mem _ hi') hn')
          ⟨hsum, hle, hblocks⟩
      · split
        · exact ⟨hsum, hle, hblocks⟩
        · rename_i h1 h2 hbud
          apply ih _ (fun it' hi' hn' => hP it' (List.mem_cons_of_mem _ hi') hn')
          refine ⟨?_, ?_, ?_⟩
          · simpa using hsum
          · simp only [not_lt] at hbud
            exact hbud
          · intro p hp
            rcases List.mem_append.mp hp with hp1 | hp2
            · exact hblocks p hp1
            · rcases List.mem_singleton.mp hp2 with rfl
              exact hP it (List.mem_cons_self _ _) h1

/-- C9: in the Answer Assembler\x27s context builder, the running total
is exactly the sum of the emitted blocks\x27 lengths and never exceeds
the total budget `max_chars` (emission stops via `break` before any
block that would exceed it); every emitted block is traced to the key
or lexical item that produced it — it is exactly that source\x27s
resolved text, truncated under the per-chunk guard, followed by the
inline `[SOURCE doc_id=... section=... chunk_index=...]` tag naming
exactly that source\x27s doc_id, section and chunk_index — and whenever
`max_chunk_chars` is positive (Python\x27s truthiness guard) the text
part is within that bound; with a 500-character budget and two
300-character candidate chunks only the first block is emitted and the
reported `context_chars` is 353, not ~700. -/
theorem C9_context_budget_truncation_provenance :
    (∀ (cfg : RagCfg) (pl : (String × String × Nat) → Option RagPayload)
       (grouped : List Grouped),
      (buildContextParts cfg pl grouped).2.2
          = ((buildContextParts cfg pl grouped).1.map List.length).sum
      ∧ (buildContextParts cfg pl grouped).2.2 ≤ cfg.maxChars
      ∧ (∀ p ∈ (buildContextParts cfg pl grouped).1,
          BlockOfSource cfg pl (baseItemsOf cfg.maxDocs cfg.perDoc grouped)
            (orderedKeysOf (baseItemsOf cfg.maxDocs cfg.perDoc grouped)
              cfg.expandRadius) p)
      ∧ (0 < cfg.maxChunkChars →
          ∀ p ∈ (buildContextParts cfg pl grouped).1,
            ∃ t d s c, p = t ++ sourceTag d s c ∧ t.length ≤ cfg.maxChunkChars))
    ∧ (buildContextParts cfg500 plC [groupedC]).1.length = 1
    ∧ (buildContextParts cfg500 plC [groupedC]).2.2 = 353
    ∧ (ragContext cfg500 plC [groupedC]).length = 353 := by
  refine ⟨?_, by decide, by decide, by decide⟩
  intro cfg pl grouped
  have h : EmitInv cfg
      (BlockOfSource cfg pl (baseItemsOf cfg.maxDocs cfg.perDoc grouped)
        (orderedKeysOf (baseItemsOf cfg.maxDocs cfg.perDoc grouped) cfg.expandRadius))
      (buildContextParts cfg pl grouped) :=
    emit6_inv cfg _ (baseItemsOf cfg.maxDocs cfg.perDoc grouped) _
      (fun it hit hnone =>
        Or.inr ⟨it, hit, Option.not_isSome_iff_eq_none.mp hnone, rfl⟩)
      (emit5_inv cfg pl (baseItemsOf cfg.maxDocs cfg.perDoc grouped) _
        (orderedKeysOf (baseItemsOf cfg.maxDocs cfg.perDoc grouped) cfg.expandRadius)
        ([], [], 0)
        (fun k hk => Or.inl ⟨k, hk, rfl⟩)
        ⟨rfl, Nat.zero_le _, by simp⟩)
  obtain ⟨h1, h2, h3⟩ := h
  refine ⟨h1, h2, h3, ?_⟩
  intro hm p hp
  rcases h3 p hp with ⟨k, hk, rfl⟩ | ⟨it, hit, hnone, rfl⟩
  · exact ⟨truncChunk cfg.maxChunkChars
        (step5Text pl (baseItemsOf cfg.maxDocs cfg.perDoc grouped) k),
      k.1, k.2.1, ⟨UuidM.natDecimal k.2.2⟩, rfl, truncChunk_le _ _ hm⟩
  · exact ⟨truncChunk cfg.maxChunkChars (step6Text it), it.doc_id, it.sec, "None",
      rfl, truncChunk_le _ _ hm⟩

/-- C9 witness: the theorem applied to the 500-character scenario: the
single emitted block is traced to its source (its resolved text plus
the tag naming that source), and its text part is within the per-chunk
bound. -/
theorem C9_context_witness :
    BlockOfSource cfg500 plC (baseItemsOf cfg500.maxDocs cfg500.perDoc [groupedC])
      (orderedKeysOf (baseItemsOf cfg500.maxDocs cfg500.perDoc [groupedC])
        cfg500.expandRadius)
      ((buildContextParts cfg500 plC [groupedC]).1.getD 0 [])
    ∧ ∃ t d s c,
        (buildContextParts cfg500 plC [groupedC]).1.getD 0 []
            = t ++ sourceTag d s c ∧ t.length ≤ cfg500.maxChunkChars :=
  ⟨(C9_context_budget_truncation_provenance.1 cfg500 plC [groupedC]).2.2.1
      ((buildContextParts cfg500 plC [groupedC]).1.getD 0 []) (by decide),
   (C9_context_budget_truncation_provenance.1 cfg500 plC [groupedC]).2.2.2
      (by decide) ((buildContextParts cfg500 plC [groupedC]).1.getD 0 []) (by decide)⟩

/-- C10: for every query that is empty or whitespace-only, `search`
raises `ValueError("query is required")` instead of returning a
payload, and `answer` — which strips the query and passes it to
`search` with no surrounding try/except — propagates the same
exception; for any query with a non-whitespace character, `search`
instead returns a payload. -/
theorem C10_blank_query_raises_and_answer_propagates :
    ∀ (env : RagEnv) (query : String) (topK : Nat) (filters : List (String × String)),
      ((ChunkingService.pyStrip query.data).isEmpty = true →
        SearchService.search env.searchEnv env.searchCfg query topK filters
            = .error "query is required"
        ∧ answer env query topK filters = .error "query is required")
      ∧ (¬(ChunkingService.pyStrip query.data).isEmpty = true →
        ∃ p, SearchService.search env.searchEnv env.searchCfg query topK filters
            = .ok p) := by
  intro env query topK filters
  constructor
  · intro h
    have h0 : ChunkingService.pyStrip query.data = [] := by
      cases hl : ChunkingService.pyStrip query.data with
      | nil => rfl
      | cons c rest => rw [hl] at h; simp at h
    constructor
    · unfold SearchService.search
      rw [if_pos h]
    · unfold answer
      rw [h0]
      exact rfl
  · intro h
    exact SearchService.search_ok_of_nonblank env.searchEnv env.searchCfg query
      topK filters h

/-- C10 witness: the theorem applied at a whitespace-only query (both
`search` and `answer` raise) and at a one-letter query (`search`
returns a payload). -/
theorem C10_blank_query_witness :
    (SearchService.search ragEnvFixture.searchEnv ragEnvFixture.searchCfg "   " 5 []
        = .error "query is required"
      ∧ answer ragEnvFixture "   " 5 [] = .error "query is required")
    ∧ ∃ p, SearchService.search ragEnvFixture.searchEnv ragEnvFixture.searchCfg "x" 5 []
        = .ok p :=
  ⟨(C10_blank_query_raises_and_answer_propagates ragEnvFixture "   " 5 []).1 (by decide),
   (C10_blank_query_raises_and_answer_propagates ragEnvFixture "x" 5 []).2 (by decide)⟩

end RagService

namespace StructuringService

theorem dictSet_keys_of_mem (d : List (String × String)) (k v : String)
    (h : k ∈ d.map Prod.fst) :
    (dictSet d k v).map Prod.fst = d.map Prod.fst := by
  induction d with
  | nil => simp at h
  | cons p rest ih =>
    obtain ⟨k', v'⟩ := p
    unfold dictSet
    by_cases hk : (k' == k) = true
    · rw [if_pos hk]
      have : k' = k := by simpa using hk
      simp [this]
    · rw [if_neg hk]
      simp only [List.map_cons]
      congr 1
      apply ih
      rw [List.map_cons] at h
      rcases List.mem_cons.mp h with h1 | h2
      · exact absurd (by subst h1; simp) hk
      · exact h2

theorem keysEq_dictSet {d : List (String × String)} (k v : String)
    (hd : d.map Prod.fst = canonicalKeys) (hk : k ∈ canonicalKeys) :
    (dictSet d k v).map Prod.fst = canonicalKeys := by
  rw [dictSet_keys_of_mem d k v (by rw [hd]; exact hk), hd]

theorem t2sGo_mem_snd (mtch tok : String → String → Bool) (s : String) :
    ∀ (table : List (String × String)) (sec : String),
      t2sGo mtch tok s table = some sec → sec ∈ table.map Prod.snd := by
  intro table
  induction table with
  | nil => intro sec h; simp [t2sGo] at h
  | cons p rest ih =>
    intro sec h
    obtain ⟨pat, sc⟩ := p
    unfold t2sGo at h
    split at h
    · injection h with h; subst h; simp
    · split at h
      · injection h with h; subst h; simp
      · simp only [List.map_cons, List.mem_cons]
        exact Or.inr (ih sec h)

theorem titleToSection_mem (mtch tok : String → String → Bool) (title sec : String)
    (h : titleToSection mtch tok title = some sec) : sec ∈ canonicalKeys := by
  unfold titleToSection at h
  split at h
  · exact absurd h (by simp)
  · have hmem := t2sGo_mem_snd mtch tok _ TITLE_TO_SECTION sec h
    simp only [TITLE_TO_SECTION, List.map_cons, List.map_nil, List.mem_cons,
      List.not_mem_nil, or_false] at hmem
    rcases hmem with rfl | rfl | rfl | rfl | rfl | rfl | rfl | rfl | rfl | rfl | rfl
      <;> decide

theorem keysEq_assignSpan {d : List (String × String)} (sec : Option String)
    (block : String) (hd : d.map Prod.fst = canonicalKeys)
    (hsec : ∀ s, sec = some s → s ∈ canonicalKeys) :
    (assignSpan d sec block).map Prod.fst = canonicalKeys := by
  cases sec with
  | none => exact hd
  | some s =>
    have hs := hsec s rfl
    unfold assignSpan
    dsimp only
    split
    · exact keysEq_dictSet _ _ hd hs
    · exact keysEq_dictSet _ _ hd hs

theorem keysEq_processSpans (mtch tok : String → String → Bool)
    (lines : List (List Char)) (total : Nat) :
    ∀ (spans : List (Nat × String)) (d : List (String × String)),
      d.map Prod.fst = canonicalKeys →
      (processSpans (titleToSection mtch tok) lines total spans d).map Prod.fst
        = canonicalKeys := by
  intro spans
  induction spans with
  | nil => intro d hd; exact hd
  | cons sp rest ih =>
    intro d hd
    obtain ⟨i, title⟩ := sp
    unfold processSpans
    exact ih _ (keysEq_assignSpan _ _ hd
      (fun s hs => titleToSection_mem mtch tok title s hs))

theorem keysEq_fillStep (k v : String) (d : List (String × String))
    (hd : d.map Prod.fst = canonicalKeys) (hk : k ∈ canonicalKeys) :
    (fillStep k v d).map Prod.fst = canonicalKeys := by
  unfold fillStep
  split
  · exact keysEq_dictSet _ _ hd hk
  · exact hd

theorem keysEq_fill (bw : String → List String → List String → Nat → String)
    (t : String) (d : List (String × String))
    (hd : d.map Prod.fst = canonicalKeys) :
    (fillEmptySectionsFallback bw t d).map Prod.fst = canonicalKeys := by
  unfold fillEmptySectionsFallback
  split
  · exact hd
  · exact keysEq_fillStep _ _ _
      (keysEq_fillStep _ _ _
        (keysEq_fillStep _ _ _
          (keysEq_fillStep _ _ _
            (keysEq_fillStep _ _ _
              (keysEq_fillStep _ _ _
                (keysEq_fillStep _ _ _
                  (keysEq_fillStep _ _ _
                    (keysEq_fillStep _ _ _ hd (by decide))
                    (by decide))
                  (by decide))
                (by decide))
              (by decide))
            (by decide))
          (by decide))
        (by decide))
      (by decide)

/-- C3: for every input text (and every behaviour of the regex-backed
text transformers, title detector, pattern matchers and window
extractor), `split_into_sections` returns a mapping whose key list is
exactly the ten canonical section keys (contexte, mission, taches,
livrables, planning, profil, competences, evaluation, candidature,
taches_table), each bound to a string, so looking up any canonical key
never fails; `structure_ami`\x27s sections mapping carries the same full
key set. -/
theorem C3_section_maps_full_key_set :
    (∀ (nt nft : String → String) (isTitle : String → Bool)
       (mtch tok : String → String → Bool)
       (bw : String → List String → List String → Nat → String) (text : String),
      (split_into_sections nt nft isTitle mtch tok bw text).map Prod.fst
        = canonicalKeys)
    ∧ ∀ (env : AmiRegexEnv) (text : String),
      (structure_ami env text).sections.map Prod.fst = canonicalKeys := by
  constructor
  · intro nt nft isTitle mtch tok bw text
    unfold split_into_sections
    split
    · exact keysEq_fill bw _ _ (keysEq_dictSet _ _ (by decide) (by decide))
    · exact keysEq_fill bw _ _
        (keysEq_processSpans mtch tok _ _ _ _ (by decide))
  · intro env text
    rfl

end StructuringService
